import Mathlib

/-!
# Neko: the batched quad renderer and its matrix helpers

A shallow embedding of `src/math.c`, `src/renderer.c` and the two window
queries of `src/x11.c` that the renderer uses.

* C `float` values are idealised as exact rationals (`ℚ`).
* `uint32_t` counters are natural numbers, every increment and product taken
  modulo `2 ^ 32`.
* The process-wide `self` of `renderer.c` is the record `Renderer`, passed
  explicitly.  The OpenGL driver is outside the program; every command the
  renderer sends to it is appended to the field `gl`, oldest first.
* Values that the driver hands back (`glGen*` names, the linked program, the
  uniform location) are inputs of `renderer_init`.
-/

namespace Neko

/-! ## math.c -/

/-- The `vec2` of `math.h`. -/
structure vec2 where
  x : ℚ
  y : ℚ

/-- The `mat4` of `math.h`: sixteen scalars named `m0` .. `m15`.  Read
row-major, `m(4*i+j)` is the entry at row `i`, column `j`; with that reading
`math_mat4_mul a b` is the usual product `a × b`. -/
@[ext]
structure mat4 where
  m0 : ℚ
  m1 : ℚ
  m2 : ℚ
  m3 : ℚ
  m4 : ℚ
  m5 : ℚ
  m6 : ℚ
  m7 : ℚ
  m8 : ℚ
  m9 : ℚ
  m10 : ℚ
  m11 : ℚ
  m12 : ℚ
  m13 : ℚ
  m14 : ℚ
  m15 : ℚ

/-- The matrix `math_mat4_identity()`. -/
def math_mat4_identity : mat4 :=
  { m0 := 1, m1 := 0, m2 := 0, m3 := 0,
    m4 := 0, m5 := 1, m6 := 0, m7 := 0,
    m8 := 0, m9 := 0, m10 := 1, m11 := 0,
    m12 := 0, m13 := 0, m14 := 0, m15 := 1 }

/-- The product `math_mat4_mul(a, b)`, entry by entry as in the source. -/
def math_mat4_mul (a b : mat4) : mat4 :=
  { m0  := a.m0*b.m0  + a.m1*b.m4  + a.m2*b.m8   + a.m3*b.m12
    m1  := a.m0*b.m1  + a.m1*b.m5  + a.m2*b.m9   + a.m3*b.m13
    m2  := a.m0*b.m2  + a.m1*b.m6  + a.m2*b.m10  + a.m3*b.m14
    m3  := a.m0*b.m3  + a.m1*b.m7  + a.m2*b.m11  + a.m3*b.m15
    m4  := a.m4*b.m0  + a.m5*b.m4  + a.m6*b.m8   + a.m7*b.m12
    m5  := a.m4*b.m1  + a.m5*b.m5  + a.m6*b.m9   + a.m7*b.m13
    m6  := a.m4*b.m2  + a.m5*b.m6  + a.m6*b.m10  + a.m7*b.m14
    m7  := a.m4*b.m3  + a.m5*b.m7  + a.m6*b.m11  + a.m7*b.m15
    m8  := a.m8*b.m0  + a.m9*b.m4  + a.m10*b.m8  + a.m11*b.m12
    m9  := a.m8*b.m1  + a.m9*b.m5  + a.m10*b.m9  + a.m11*b.m13
    m10 := a.m8*b.m2  + a.m9*b.m6  + a.m10*b.m10 + a.m11*b.m14
    m11 := a.m8*b.m3  + a.m9*b.m7  + a.m10*b.m11 + a.m11*b.m15
    m12 := a.m12*b.m0 + a.m13*b.m4 + a.m14*b.m8  + a.m15*b.m12
    m13 := a.m12*b.m1 + a.m13*b.m5 + a.m14*b.m9  + a.m15*b.m13
    m14 := a.m12*b.m2 + a.m13*b.m6 + a.m14*b.m10 + a.m15*b.m14
    m15 := a.m12*b.m3 + a.m13*b.m7 + a.m14*b.m11 + a.m15*b.m15 }

/-- The matrix `math_mat4_ortho(left, right, bottom, top, near, far)`.  The
division is the total one of `ℚ` (`x / 0 = 0`); the divisors are examined
separately in `math_mat4_ortho_checked`. -/
def math_mat4_ortho (left right bottom top near far : ℚ) : mat4 :=
  let rl := right - left
  let tb := top - bottom
  let fn := far - near
  { m0 := 2 / rl, m1 := 0, m2 := 0, m3 := 0,
    m4 := 0, m5 := 2 / tb, m6 := 0, m7 := 0,
    m8 := 0, m9 := 0, m10 := -2 / fn, m11 := 0,
    m12 := -(left + right) / rl,
    m13 := -(top + bottom) / tb,
    m14 := -(far + near) / fn,
    m15 := 1 }

/-- A division that reports a zero divisor instead of computing with it. -/
def checked_div (a b : ℚ) : Option ℚ :=
  if b = 0 then none else some (a / b)

/-- The body of `math_mat4_ortho` with each of its six divisions replaced by
`checked_div`, in source order: the result is `none` exactly when one of the
divisions of the source has a zero divisor. -/
def math_mat4_ortho_checked (left right bottom top near far : ℚ) : Option mat4 := do
  let rl := right - left
  let tb := top - bottom
  let fn := far - near
  let m0 ← checked_div 2 rl
  let m5 ← checked_div 2 tb
  let m10 ← checked_div (-2) fn
  let m12 ← checked_div (-(left + right)) rl
  let m13 ← checked_div (-(top + bottom)) tb
  let m14 ← checked_div (-(far + near)) fn
  pure { m0 := m0, m1 := 0, m2 := 0, m3 := 0,
         m4 := 0, m5 := m5, m6 := 0, m7 := 0,
         m8 := 0, m9 := 0, m10 := m10, m11 := 0,
         m12 := m12, m13 := m13, m14 := m14, m15 := 1 }

/-- The matrix `math_mat4_transpose(m)`. -/
def math_mat4_transpose (m : mat4) : mat4 :=
  { m0 := m.m0, m1 := m.m4, m2 := m.m8, m3 := m.m12,
    m4 := m.m1, m5 := m.m5, m6 := m.m9, m7 := m.m13,
    m8 := m.m2, m9 := m.m6, m10 := m.m10, m11 := m.m14,
    m12 := m.m3, m13 := m.m7, m14 := m.m11, m15 := m.m15 }

/-- Modelled from the spec: the vertex shader `src/shaders/general_vs.glsl`,
which applies the uploaded matrix to a vertex position, and `math.h` are not
among the sources.  The spec has the projection send a 2D point to clip
coordinates and has matrices row-major.  The result is the clip vector
`(x, y, z, w)` of the point `(x, y)`: the point is extended to `(x, y, 0, 1)`
and multiplied, as a row vector, with the row-major matrix.  This is the
reading under which the matrix of `math_mat4_ortho` is an affine map of
points: its translation terms are `m12`, `m13`, `m14`, and `m3 = m7 = m11 = 0`,
`m15 = 1`.  It is also the usual OpenGL reading of the sixteen numbers, in
which `m12`, `m13`, `m14` translate. -/
def mat4_transform_point (m : mat4) (x y : ℚ) : ℚ × ℚ × ℚ × ℚ :=
  ( x * m.m0 + y * m.m4 + 0 * m.m8  + 1 * m.m12,
    x * m.m1 + y * m.m5 + 0 * m.m9  + 1 * m.m13,
    x * m.m2 + y * m.m6 + 0 * m.m10 + 1 * m.m14,
    x * m.m3 + y * m.m7 + 0 * m.m11 + 1 * m.m15 )

/-! ## x11.c: the window queries used by the renderer -/

/-- The fields of the `self` of `x11.c` that the two queries read. -/
structure Window where
  width : Int
  height : Int
  should_close : Bool

/-- The query `system_window_size()`. -/
def system_window_size (win : Window) : vec2 :=
  { x := (win.width : ℚ), y := (win.height : ℚ) }

/-- The query `system_window_is_visible()`. -/
def system_window_is_visible (win : Window) : Bool :=
  decide (win.width > 0) && decide (win.height > 0) && !win.should_close

/-! ## renderer.c -/

/-- The `Color` of `renderer.h`. -/
structure Color where
  r : ℚ
  g : ℚ
  b : ℚ
  a : ℚ

/-- The constant `WHITE` of `renderer.h`. -/
def WHITE : Color := { r := 1, g := 1, b := 1, a := 1 }

/-- The `Image` of `renderer.h`: a texture name and its size. -/
structure Image where
  id : Nat
  width : Int
  height : Int

/-- The `Vertex` of `renderer.c`; the fields are listed in declaration order,
which is the order of the eight floats in memory. -/
structure Vertex where
  x : ℚ
  y : ℚ
  u : ℚ
  v : ℚ
  r : ℚ
  g : ℚ
  b : ℚ
  a : ℚ

/-- The eight floats of a vertex in memory order. -/
def Vertex.floats (p : Vertex) : List ℚ :=
  [p.x, p.y, p.u, p.v, p.r, p.g, p.b, p.a]

def ATTRIB_POSITION : Nat := 0

def ATTRIB_COLOR : Nat := 1

def ATTRIB_TEXCOORDS : Nat := 2

def MAX_QUADS : Nat := 1 <<< 14

def MAX_VERTS : Nat := MAX_QUADS * 4

def MAX_INDXS : Nat := MAX_QUADS * 6

/-- Number of bytes of a C `float`. -/
def sizeof_float : Nat := 4

/-- Number of bytes of a `Vertex`: eight floats. -/
def sizeof_Vertex : Nat := 8 * sizeof_float

/-- Number of bytes of a `uint32_t`. -/
def sizeof_uint32 : Nat := 4

/-- The OpenGL constants that the renderer passes. -/
inductive GLenum where
  | GL_ARRAY_BUFFER
  | GL_ELEMENT_ARRAY_BUFFER
  | GL_DYNAMIC_DRAW
  | GL_STATIC_DRAW
  | GL_FLOAT
  | GL_UNSIGNED_INT
  | GL_UNSIGNED_BYTE
  | GL_TRIANGLES
  | GL_TEXTURE_2D
  | GL_RGBA
  | GL_TEXTURE_MIN_FILTER
  | GL_TEXTURE_MAG_FILTER
  | GL_LINEAR
  | GL_COLOR_BUFFER_BIT
  | GL_SRC_ALPHA
  | GL_ONE_MINUS_SRC_ALPHA
  | GL_BLEND
  deriving DecidableEq, Repr

/-- One command sent to the OpenGL driver, with the argument values of the
call.  Pointer arguments are replaced by the data read through them; for the
`glGen*` commands and `glGetUniformLocation` the value handed back is
recorded. -/
inductive GLCall where
  | glGenTextures (n : Nat) (name : Nat)
  | glBindTexture (target : GLenum) (texture : Nat)
  | glTexImage2D (target : GLenum) (level : Int) (internalformat : GLenum)
      (width height : Int) (border : Int) (format type : GLenum) (pixels : List Nat)
  | glTexParameteri (target pname param : GLenum)
  | glGenerateMipmap (target : GLenum)
  | glGenVertexArrays (n : Nat) (name : Nat)
  | glBindVertexArray (array : Nat)
  | glGenBuffers (n : Nat) (name : Nat)
  | glBindBuffer (target : GLenum) (buffer : Nat)
  | glBufferData (target : GLenum) (size : Nat) (data : Option (Nat → Nat)) (usage : GLenum)
  | glBufferSubData (target : GLenum) (offset size : Nat) (data : List Vertex)
  | glEnableVertexAttribArray (index : Nat)
  | glVertexAttribPointer (index : Nat) (size : Nat) (type : GLenum) (normalized : Bool)
      (stride : Nat) (pointer : Nat)
  | glUseProgram (program : Nat)
  | glGetUniformLocation (program : Nat) (name : String) (location : Int)
  | glUniformMatrix4fv (location : Int) (count : Nat) (transpose : Bool) (value : mat4)
  | glDrawElements (mode : GLenum) (count : Nat) (type : GLenum) (indices : Nat)
  | glClearColor (r g b a : ℚ)
  | glClear (mask : GLenum)
  | glViewport (x y : Int) (width height : Int)
  | glBlendFunc (sfactor dfactor : GLenum)
  | glEnable (cap : GLenum)

/-- The static `self` of `renderer.c`, together with the commands sent to the
driver so far (`gl`, oldest first).  `vertices` is the array
`Vertex vertices[MAX_VERTS]`, given by its entry at each index; only indices
below `MAX_VERTS` exist in the program. -/
structure Renderer where
  vao : Nat
  vbo : Nat
  ebo : Nat
  shader : Nat
  proj_view_loc : Int
  proj_view : mat4
  pixel : Image
  hot_image : Image
  hot_color : Color
  vertices : Nat → Vertex
  curr_vert : Nat
  curr_quad : Nat
  gl : List GLCall

/-- The state `self = { 0 }` before any call, with nothing sent to the driver. -/
def renderer_zero : Renderer :=
  { vao := 0, vbo := 0, ebo := 0, shader := 0,
    proj_view_loc := 0,
    proj_view := { m0 := 0, m1 := 0, m2 := 0, m3 := 0, m4 := 0, m5 := 0, m6 := 0, m7 := 0,
                   m8 := 0, m9 := 0, m10 := 0, m11 := 0, m12 := 0, m13 := 0, m14 := 0, m15 := 0 },
    pixel := { id := 0, width := 0, height := 0 },
    hot_image := { id := 0, width := 0, height := 0 },
    hot_color := { r := 0, g := 0, b := 0, a := 0 },
    vertices := fun _ => { x := 0, y := 0, u := 0, v := 0, r := 0, g := 0, b := 0, a := 0 },
    curr_vert := 0,
    curr_quad := 0,
    gl := [] }

/-- The first `n` entries of the vertex array, in index order. -/
def Renderer.first_vertices (s : Renderer) (n : Nat) : List Vertex :=
  (List.range n).map s.vertices

/-- The commands of a `renderer_flush()` that does not return early, in source
order.  `glBufferSubData` reads `curr_vert * sizeof(Vertex)` bytes from the
start of `self.vertices`, that is its first `curr_vert` entries; the count of
`glDrawElements` is the `uint32_t` product `curr_quad * 6`. -/
def flush_calls (s : Renderer) : List GLCall :=
  [ GLCall.glBindVertexArray s.vao,
    GLCall.glBindBuffer GLenum.GL_ARRAY_BUFFER s.vbo,
    GLCall.glBufferSubData GLenum.GL_ARRAY_BUFFER 0 (s.curr_vert * sizeof_Vertex)
      (s.first_vertices s.curr_vert),
    GLCall.glEnableVertexAttribArray ATTRIB_POSITION,
    GLCall.glVertexAttribPointer ATTRIB_POSITION 2 GLenum.GL_FLOAT false
      (8 * sizeof_float) 0,
    GLCall.glEnableVertexAttribArray ATTRIB_COLOR,
    GLCall.glVertexAttribPointer ATTRIB_COLOR 4 GLenum.GL_FLOAT false
      (8 * sizeof_float) (2 * sizeof_float),
    GLCall.glEnableVertexAttribArray ATTRIB_TEXCOORDS,
    GLCall.glVertexAttribPointer ATTRIB_TEXCOORDS 2 GLenum.GL_FLOAT false
      (8 * sizeof_float) (6 * sizeof_float),
    GLCall.glUseProgram s.shader,
    GLCall.glUniformMatrix4fv s.proj_view_loc 1 true s.proj_view,
    GLCall.glBindBuffer GLenum.GL_ELEMENT_ARRAY_BUFFER s.ebo,
    GLCall.glBindTexture GLenum.GL_TEXTURE_2D s.hot_image.id,
    GLCall.glDrawElements GLenum.GL_TRIANGLES ((s.curr_quad * 6) % 2 ^ 32)
      GLenum.GL_UNSIGNED_INT 0 ]

/-- The procedure `renderer_flush()`. -/
def renderer_flush (s : Renderer) : Renderer :=
  if s.curr_quad = 0 then s
  else { s with gl := s.gl ++ flush_calls s, curr_quad := 0, curr_vert := 0 }

/-- The procedure `renderer_set_color(c)`. -/
def renderer_set_color (c : Color) (s : Renderer) : Renderer :=
  { s with hot_color := c }

/-- The procedure `renderer_set_image(i)`. -/
def renderer_set_image (i : Image) (s : Renderer) : Renderer :=
  let s1 := if i.id ≠ s.hot_image.id then renderer_flush s else s
  { s1 with hot_image := i }

/-- The function `renderer_mem_image(width, height, pixels)`; `name` is the
texture name that `glGenTextures` hands back. -/
def renderer_mem_image (name : Nat) (width height : Int) (pixels : List Nat)
    (s : Renderer) : Image × Renderer :=
  ( { id := name, width := width, height := height },
    { s with gl := s.gl ++
        [ GLCall.glGenTextures 1 name,
          GLCall.glBindTexture GLenum.GL_TEXTURE_2D name,
          GLCall.glTexImage2D GLenum.GL_TEXTURE_2D 0 GLenum.GL_RGBA width height 0
            GLenum.GL_RGBA GLenum.GL_UNSIGNED_BYTE pixels,
          GLCall.glTexParameteri GLenum.GL_TEXTURE_2D GLenum.GL_TEXTURE_MIN_FILTER
            GLenum.GL_LINEAR,
          GLCall.glTexParameteri GLenum.GL_TEXTURE_2D GLenum.GL_TEXTURE_MAG_FILTER
            GLenum.GL_LINEAR,
          GLCall.glGenerateMipmap GLenum.GL_TEXTURE_2D,
          GLCall.glBindTexture GLenum.GL_TEXTURE_2D 0 ] } )

/-- The helper `make_v(x, y, u, v)`: a positional initialiser, so the eight
values fill the fields of `Vertex` in declaration order. -/
def make_v (s : Renderer) (x y u v : ℚ) : Vertex :=
  { x := x, y := y,
    u := s.hot_color.r, v := s.hot_color.g,
    r := s.hot_color.b, g := s.hot_color.a,
    b := u, a := v }

/-- The statement `self.vertices[self.curr_vert++] = p`.  The array has
`MAX_VERTS` entries; a write at an index outside it has no defined result and
gives `none`. -/
def write_vertex (p : Vertex) (s : Renderer) : Option Renderer :=
  if s.curr_vert < MAX_VERTS then
    some { s with vertices := Function.update s.vertices s.curr_vert p,
                  curr_vert := (s.curr_vert + 1) % 2 ^ 32 }
  else none

/-- The procedure `renderer_push_quad(x1, y1, x2, y2, u0, u1, v0, v1)`. -/
def renderer_push_quad (x1 y1 x2 y2 u0 u1 v0 v1 : ℚ) (s : Renderer) : Option Renderer := do
  let s0 := if s.curr_quad ≥ MAX_QUADS then renderer_flush s else s
  let s1 ← write_vertex (make_v s0 x1 y1 u0 v0) s0
  let s2 ← write_vertex (make_v s1 x2 y1 u1 v0) s1
  let s3 ← write_vertex (make_v s2 x2 y2 u1 v1) s2
  let s4 ← write_vertex (make_v s3 x1 y2 u0 v1) s3
  pure { s4 with curr_quad := (s4.curr_quad + 1) % 2 ^ 32 }

/-- The conversion of a `float` to a C `int` (truncation toward zero). -/
def float_to_int (q : ℚ) : Int :=
  if 0 ≤ q then Rat.floor q else Rat.ceil q

/-- The procedure `renderer_frame()`; `win` is the window state that
`system_window_size()` reads.  With a width or height of zero the program
divides by zero and stores a matrix with non-finite entries; `proj_view`
stands for the stored matrix only when both are non-zero, where no division
has a zero divisor. -/
def renderer_frame (win : Window) (s : Renderer) : Renderer :=
  let w_size := system_window_size win
  let view := math_mat4_identity
  let proj := math_mat4_ortho 0 w_size.x w_size.y 0 (-1) 1
  { s with
    proj_view := math_mat4_mul proj view,
    gl := s.gl ++
      [ GLCall.glClearColor (1 / 10) (1 / 10) (1 / 10) 1,
        GLCall.glClear GLenum.GL_COLOR_BUFFER_BIT,
        GLCall.glViewport 0 0 (float_to_int w_size.x) (float_to_int w_size.y),
        GLCall.glBlendFunc GLenum.GL_SRC_ALPHA GLenum.GL_ONE_MINUS_SRC_ALPHA,
        GLCall.glEnable GLenum.GL_BLEND ] }

/-- One pass of the index loop of `renderer_init`: the six writes at
`indxs[i + 0 .. i + 5]`. -/
def init_indxs_body (v i : Nat) (indxs : Nat → Nat) : Nat → Nat :=
  let a0 := Function.update indxs ((i + 0) % 2 ^ 32) ((v + 0) % 2 ^ 32)
  let a1 := Function.update a0 ((i + 1) % 2 ^ 32) ((v + 1) % 2 ^ 32)
  let a2 := Function.update a1 ((i + 2) % 2 ^ 32) ((v + 2) % 2 ^ 32)
  let a3 := Function.update a2 ((i + 3) % 2 ^ 32) ((v + 0) % 2 ^ 32)
  let a4 := Function.update a3 ((i + 4) % 2 ^ 32) ((v + 2) % 2 ^ 32)
  Function.update a4 ((i + 5) % 2 ^ 32) ((v + 3) % 2 ^ 32)

/-- The loop `for (v = 0, i = 0; i < MAX_INDXS; i += 6, v += 4)` of
`renderer_init`, entered with the given `v`, `i` and array contents.
`fuel` bounds the number of passes. -/
def init_indxs_loop : Nat → Nat → Nat → (Nat → Nat) → (Nat → Nat)
  | 0, _, _, indxs => indxs
  | fuel + 1, v, i, indxs =>
    if i < MAX_INDXS then
      init_indxs_loop fuel ((v + 4) % 2 ^ 32) ((i + 6) % 2 ^ 32) (init_indxs_body v i indxs)
    else indxs

/-- The array `indxs` after the loop of `renderer_init`; `MAX_INDXS` passes
are more than the loop makes. -/
def init_indxs : Nat → Nat :=
  init_indxs_loop MAX_INDXS 0 0 (fun _ => 0)

/-- The values the driver hands back during `renderer_init`: the texture
name of `glGenTextures`, the names of `glGenVertexArrays` and of the two
`glGenBuffers`, the program returned by `compile_shader_src` (`0` when
linking failed) and the location returned by `glGetUniformLocation`. -/
structure GLNames where
  texture : Nat
  vao : Nat
  vbo : Nat
  ebo : Nat
  shader : Nat
  proj_view_loc : Int

/-- The procedure `renderer_init()`.  The commands issued inside
`compile_shader_src` are not recorded; its result is `env.shader`.  A failed
`assert` ends the program: `none`. -/
def renderer_init (env : GLNames) (s : Renderer) : Option Renderer :=
  let r := renderer_mem_image env.texture 1 1 [255, 255, 255, 255] s
  let s1 : Renderer := { r.2 with pixel := r.1 }
  let s2 : Renderer := renderer_set_image s1.pixel s1
  let s3 : Renderer := { s2 with hot_color := WHITE }
  let s4 : Renderer :=
    { s3 with
      vao := env.vao,
      gl := s3.gl ++
        [ GLCall.glGenVertexArrays 1 env.vao,
          GLCall.glBindVertexArray env.vao ] }
  let s5 : Renderer :=
    { s4 with
      vbo := env.vbo,
      gl := s4.gl ++
        [ GLCall.glGenBuffers 1 env.vbo,
          GLCall.glBindBuffer GLenum.GL_ARRAY_BUFFER env.vbo,
          GLCall.glBufferData GLenum.GL_ARRAY_BUFFER (MAX_VERTS * sizeof_Vertex) none
            GLenum.GL_DYNAMIC_DRAW ] }
  let indxs := init_indxs
  let s6 : Renderer :=
    { s5 with
      ebo := env.ebo,
      gl := s5.gl ++
        [ GLCall.glGenBuffers 1 env.ebo,
          GLCall.glBindBuffer GLenum.GL_ELEMENT_ARRAY_BUFFER env.ebo,
          GLCall.glBufferData GLenum.GL_ELEMENT_ARRAY_BUFFER (MAX_INDXS * sizeof_uint32)
            (some indxs) GLenum.GL_STATIC_DRAW ] }
  let s7 : Renderer :=
    { s6 with
      gl := s6.gl ++
        [ GLCall.glBindBuffer GLenum.GL_ARRAY_BUFFER 0,
          GLCall.glBindVertexArray 0 ] }
  let s8 : Renderer := { s7 with shader := env.shader }
  if s8.shader = 0 then none
  else
    let s9 : Renderer := { s8 with gl := s8.gl ++ [GLCall.glUseProgram s8.shader] }
    let s10 : Renderer :=
      { s9 with
        proj_view_loc := env.proj_view_loc,
        gl := s9.gl ++
          [ GLCall.glGetUniformLocation s9.shader "u_proj_view" env.proj_view_loc ] }
    if s10.proj_view_loc = -1 then none else some s10

/-! ## Sequences of renderer calls -/

/-- The eight arguments of one `renderer_push_quad` call. -/
structure QuadArgs where
  x1 : ℚ
  y1 : ℚ
  x2 : ℚ
  y2 : ℚ
  u0 : ℚ
  u1 : ℚ
  v0 : ℚ
  v1 : ℚ

/-- One call of the renderer interface, with its arguments (and, for
`renderer_init` and `renderer_frame`, the values read from outside). -/
inductive Op where
  | init (env : GLNames)
  | frame (win : Window)
  | set_color (c : Color)
  | set_image (i : Image)
  | push_quad (q : QuadArgs)
  | flush

/-- The effect of one call. -/
def step (op : Op) (s : Renderer) : Option Renderer :=
  match op with
  | Op.init env => renderer_init env s
  | Op.frame win => some (renderer_frame win s)
  | Op.set_color c => some (renderer_set_color c s)
  | Op.set_image i => some (renderer_set_image i s)
  | Op.push_quad q => renderer_push_quad q.x1 q.y1 q.x2 q.y2 q.u0 q.u1 q.v0 q.v1 s
  | Op.flush => some (renderer_flush s)

/-- The effect of a sequence of calls, first call first. -/
def run : List Op → Renderer → Option Renderer
  | [], s => some s
  | op :: ops, s => (step op s).bind (run ops)

/-- The batch invariant: four vertices per quad, at most `MAX_QUADS` quads. -/
def BatchInv (s : Renderer) : Prop :=
  s.curr_vert = 4 * s.curr_quad ∧ s.curr_quad ≤ MAX_QUADS

instance (s : Renderer) : Decidable (BatchInv s) := by
  unfold BatchInv
  infer_instance

/-! ## Observing the command stream -/

/-- The index counts of the `glDrawElements` commands of a command list, in
order. -/
def draw_counts : List GLCall → List Nat
  | [] => []
  | GLCall.glDrawElements _ count _ _ :: cs => count :: draw_counts cs
  | _ :: cs => draw_counts cs

/-- The texture names bound by the `glBindTexture` commands of a command
list, in order. -/
def texture_binds : List GLCall → List Nat
  | [] => []
  | GLCall.glBindTexture _ t :: cs => t :: texture_binds cs
  | _ :: cs => texture_binds cs

/-- The vertex data uploaded by the `glBufferSubData` commands of a command
list, in order. -/
def vertex_uploads : List GLCall → List (List Vertex)
  | [] => []
  | GLCall.glBufferSubData _ _ _ data :: cs => data :: vertex_uploads cs
  | _ :: cs => vertex_uploads cs

/-- What the vertex stage receives for one vertex: the three attributes. -/
structure VertexAttribs where
  position : List ℚ
  color : List ℚ
  texcoords : List ℚ

/-- The attribute read by `glVertexAttribPointer(_, size, GL_FLOAT, _, _, pointer)`
from one vertex: `size` floats starting `pointer` bytes into it. -/
def read_attrib (size pointer : Nat) (p : Vertex) : List ℚ :=
  (p.floats.drop (pointer / sizeof_float)).take size

/-- The three attributes of a vertex under the pointers that `renderer_flush`
sets: position, two floats at byte 0; colour, four floats at byte
`2 * sizeof(float)`; texture coordinate, two floats at byte
`6 * sizeof(float)`. -/
def Vertex.attribs (p : Vertex) : VertexAttribs :=
  { position := read_attrib 2 0 p,
    color := read_attrib 4 (2 * sizeof_float) p,
    texcoords := read_attrib 2 (6 * sizeof_float) p }

/-- A quad as it is drawn: the attributes of its four vertices and the texture
bound for its draw call. -/
structure DrawnQuad where
  p0 : VertexAttribs
  p1 : VertexAttribs
  p2 : VertexAttribs
  p3 : VertexAttribs
  texture : Nat

/-- The part of the driver state that decides what a draw call draws: the
contents of the vertex buffer and the bound texture. -/
structure GLDrawState where
  vbo_data : List Vertex
  texture : Nat

/-- The first `n` quads of a vertex buffer: with the index pattern that
`renderer_init` uploads, the `i`-th group of six indices addresses the
vertices `4 * i .. 4 * i + 3`. -/
def quads_of_buffer : Nat → List Vertex → Nat → List DrawnQuad
  | 0, _, _ => []
  | n + 1, a :: b :: c :: d :: rest, tex =>
    { p0 := a.attribs, p1 := b.attribs, p2 := c.attribs, p3 := d.attribs, texture := tex }
      :: quads_of_buffer n rest tex
  | _ + 1, _, _ => []

/-- The effect of one command on the draw state, and the quads it draws.
`glBufferSubData` replaces the buffer contents from its offset on,
`glBindTexture` selects the texture, `glDrawElements` with `count` indices
draws the first `count / 6` quads of the buffer with the bound texture. -/
def gl_exec (g : GLDrawState) : GLCall → GLDrawState × List DrawnQuad
  | GLCall.glBufferSubData _ offset _ data =>
    ( { g with vbo_data := g.vbo_data.take (offset / sizeof_Vertex) ++ data ++
          g.vbo_data.drop (offset / sizeof_Vertex + data.length) }, [] )
  | GLCall.glBindTexture _ t => ( { g with texture := t }, [] )
  | GLCall.glDrawElements _ count _ _ =>
    ( g, quads_of_buffer (count / 6) g.vbo_data g.texture )
  | _ => ( g, [] )

/-- The draw state after a command list. -/
def gl_state_after : GLDrawState → List GLCall → GLDrawState
  | g, [] => g
  | g, c :: cs => gl_state_after (gl_exec g c).1 cs

/-- The quads drawn by a command list, in draw order. -/
def drawn_quads : GLDrawState → List GLCall → List DrawnQuad
  | _, [] => []
  | g, c :: cs => (gl_exec g c).2 ++ drawn_quads (gl_exec g c).1 cs

/-- The quad that one `push_quad` submission describes, in the words of the
specification: corners `(x1,y1)`, `(x2,y1)`, `(x2,y2)`, `(x1,y2)` with texture
coordinates `(u0,v0)`, `(u1,v0)`, `(u1,v1)`, `(u0,v1)`, each with the given
tint, sharing the given texture. -/
def spec_quad (col : Color) (img : Image) (q : QuadArgs) : DrawnQuad :=
  { p0 := { position := [q.x1, q.y1], color := [col.r, col.g, col.b, col.a],
            texcoords := [q.u0, q.v0] },
    p1 := { position := [q.x2, q.y1], color := [col.r, col.g, col.b, col.a],
            texcoords := [q.u1, q.v0] },
    p2 := { position := [q.x2, q.y2], color := [col.r, col.g, col.b, col.a],
            texcoords := [q.u1, q.v1] },
    p3 := { position := [q.x1, q.y2], color := [col.r, col.g, col.b, col.a],
            texcoords := [q.u0, q.v1] },
    texture := img.id }

/-- A renderer without batching, in the words of the specification: every
`push_quad` is drawn at once with the colour and texture selected at that
moment; `set_color` and `set_image` select, `flush` draws nothing more.
The result is the sequence of quads drawn. -/
def naive_draw : List Op → Color → Image → List DrawnQuad
  | [], _, _ => []
  | Op.set_color c :: ops, _, img => naive_draw ops c img
  | Op.set_image i :: ops, col, _ => naive_draw ops col i
  | Op.push_quad q :: ops, col, img => spec_quad col img q :: naive_draw ops col img
  | _ :: ops, col, img => naive_draw ops col img

/-- The calls of the drawing interface: `renderer_set_color`,
`renderer_set_image`, `renderer_push_quad`, `renderer_flush`. -/
def Op.is_draw_op : Op → Bool
  | Op.set_color _ => true
  | Op.set_image _ => true
  | Op.push_quad _ => true
  | Op.flush => true
  | _ => false

/-- The quads waiting in the batch: the first `curr_quad` quads of the live
part of the vertex array, with the selected texture. -/
def pending_quads (s : Renderer) : List DrawnQuad :=
  quads_of_buffer s.curr_quad (s.first_vertices s.curr_vert) s.hot_image.id

/-! ## Concrete states used as examples -/

/-- A state with one quad in the batch and texture 0 selected. -/
def one_quad_state : Renderer :=
  { renderer_zero with curr_quad := 1, curr_vert := 4 }

/-- Values handed back by the driver in the example run. -/
def demo_env : GLNames :=
  { texture := 1, vao := 1, vbo := 1, ebo := 2, shader := 3, proj_view_loc := 0 }

/-- The 800 by 600 window that `entry_point` creates. -/
def demo_window : Window :=
  { width := 800, height := 600, should_close := false }

/-- The quad that `entry_point` submits: `push_quad(0, 0, 250, 250, 0, 1, 0, 1)`. -/
def demo_quad : QuadArgs :=
  { x1 := 0, y1 := 0, x2 := 250, y2 := 250, u0 := 0, u1 := 1, v0 := 0, v1 := 1 }

/-- The calls up to the flush of one frame: initialise, begin a frame at
800 by 600, submit one quad (white tint, the 1x1 white texture). -/
def demo_ops : List Op :=
  [Op.init demo_env, Op.frame demo_window, Op.push_quad demo_quad]

/-- The state reached by `demo_ops` from the zero-initialised state. -/
def demo_state : Renderer :=
  (run demo_ops renderer_zero).getD renderer_zero

/-- The four vertices that `renderer_push_quad` writes for `q` in state `s`,
in write order. -/
def quad_vertices (s : Renderer) (q : QuadArgs) : List Vertex :=
  [ make_v s q.x1 q.y1 q.u0 q.v0,
    make_v s q.x2 q.y1 q.u1 q.v0,
    make_v s q.x2 q.y2 q.u1 q.v1,
    make_v s q.x1 q.y2 q.u0 q.v1 ]

/-- A short drawing sequence with two colour changes and one texture change
between three submissions. -/
def demo_draw_ops : List Op :=
  [ Op.set_color { r := 1, g := 0, b := 0, a := 1 },
    Op.push_quad demo_quad,
    Op.set_image { id := 7, width := 16, height := 16 },
    Op.set_color { r := 0, g := 1, b := 0, a := 1 },
    Op.push_quad { x1 := 10, y1 := 10, x2 := 20, y2 := 20, u0 := 0, u1 := 1, v0 := 0, v1 := 1 },
    Op.set_color WHITE,
    Op.push_quad { x1 := 5, y1 := 5, x2 := 15, y2 := 15, u0 := 0, u1 := 1, v0 := 0, v1 := 1 } ]

/-- A driver state with an empty vertex buffer and texture 0 bound. -/
def gl_draw_state_zero : GLDrawState :=
  { vbo_data := [], texture := 0 }

/-- The quads drawn by the commands sent while a sequence of calls runs from
state `s`, the driver starting in state `g`; `none` when the run has no
result. -/
def drawn_by_run (g : GLDrawState) (ops : List Op) (s : Renderer) : Option (List DrawnQuad) :=
  (run ops s).map (fun t => drawn_quads g (t.gl.drop s.gl.length))

/-! ## Reading a matrix and the index array -/

/-- The sixteen scalars of a matrix in storage order. -/
def mat4.scalars (m : mat4) : List ℚ :=
  [ m.m0, m.m1, m.m2, m.m3, m.m4, m.m5, m.m6, m.m7,
    m.m8, m.m9, m.m10, m.m11, m.m12, m.m13, m.m14, m.m15 ]

/-- The entry at row `i`, column `j` of a matrix read row-major: the scalar
number `4 * i + j`. -/
def mat4.entry (m : mat4) (i j : Fin 4) : ℚ :=
  m.scalars.getD (4 * i.val + j.val) 0

/-- The index array that `renderer_init` hands to
`glBufferData(GL_ELEMENT_ARRAY_BUFFER, sizeof(indxs), indxs, GL_STATIC_DRAW)`,
as recorded in a command list: the data of every such command, in order. -/
def index_uploads : List GLCall → List (Nat × (Nat → Nat))
  | [] => []
  | GLCall.glBufferData GLenum.GL_ELEMENT_ARRAY_BUFFER size (some data) _ :: cs =>
    (size, data) :: index_uploads cs
  | _ :: cs => index_uploads cs

/-! ## Matrix helpers: theorems -/

/-- C8. For non-zero `W` and `H` the matrix `math_mat4_ortho(0, W, H, 0, -1, 1)`
sends the point `(0, 0)` to clip coordinates `(-1, 1)` and the point `(W, H)`
to `(1, -1)`, both with `z = 0` and `w = 1`: the y axis is flipped.  Its
entries are `m0 = 2/W`, `m5 = -2/H`, `m10 = -1`, `m12 = -1`, `m13 = 1`,
`m15 = 1`, all others zero. -/
theorem ortho_y_flip (W H : ℚ) (hW : W ≠ 0) (hH : H ≠ 0) :
    mat4_transform_point (math_mat4_ortho 0 W H 0 (-1) 1) 0 0 = (-1, 1, 0, 1) ∧
    mat4_transform_point (math_mat4_ortho 0 W H 0 (-1) 1) W H = (1, -1, 0, 1) ∧
    math_mat4_ortho 0 W H 0 (-1) 1 =
      { m0 := 2 / W, m1 := 0, m2 := 0, m3 := 0,
        m4 := 0, m5 := -2 / H, m6 := 0, m7 := 0,
        m8 := 0, m9 := 0, m10 := -1, m11 := 0,
        m12 := -1, m13 := 1, m14 := 0, m15 := 1 } := by
  have hH' : -H ≠ 0 := neg_ne_zero.mpr hH
  refine ⟨?_, ?_, ?_⟩
  · simp only [mat4_transform_point, math_mat4_ortho, Prod.mk.injEq, sub_zero, zero_sub,
      zero_add, add_zero]
    refine ⟨?_, ?_, ?_, ?_⟩
    · field_simp
    · field_simp
    · norm_num
    · norm_num
  · simp only [mat4_transform_point, math_mat4_ortho, Prod.mk.injEq, sub_zero, zero_sub,
      zero_add, add_zero]
    refine ⟨?_, ?_, ?_, ?_⟩
    · field_simp
      ring
    · field_simp
      ring
    · norm_num
    · norm_num
  · simp only [math_mat4_ortho, sub_zero, zero_sub, zero_add, add_zero]
    have h5 : 2 / -H = -2 / H := by
      field_simp
    have h12 : -W / W = -1 := by
      field_simp
    have h13 : -H / -H = 1 := by
      field_simp
    rw [h5, h12, h13]
    norm_num

/-- Witness of C8 at `W = 800`, `H = 600`. -/
theorem ortho_y_flip_witness :
    mat4_transform_point (math_mat4_ortho 0 800 600 0 (-1) 1) 0 0 = (-1, 1, 0, 1) ∧
    mat4_transform_point (math_mat4_ortho 0 800 600 0 (-1) 1) 800 600 = (1, -1, 0, 1) ∧
    math_mat4_ortho 0 800 600 0 (-1) 1 =
      { m0 := 2 / 800, m1 := 0, m2 := 0, m3 := 0,
        m4 := 0, m5 := -2 / 600, m6 := 0, m7 := 0,
        m8 := 0, m9 := 0, m10 := -1, m11 := 0,
        m12 := -1, m13 := 1, m14 := 0, m15 := 1 } :=
  ortho_y_flip 800 600 (by norm_num) (by norm_num)

/-- A checked division with a non-zero divisor gives the quotient. -/
theorem checked_div_eq_some (a b : ℚ) (hb : b ≠ 0) : checked_div a b = some (a / b) := by
  simp [checked_div, hb]

/-- C9, as the code has it: with the window 0 wide (height 600), and with the
window 0 high (width 800), a division of the projection built by
`renderer_frame` has a zero divisor. -/
theorem ortho_zero_size_divides_by_zero :
    math_mat4_ortho_checked 0
        (system_window_size { width := 0, height := 600, should_close := false }).x
        (system_window_size { width := 0, height := 600, should_close := false }).y
        0 (-1) 1 = none ∧
    math_mat4_ortho_checked 0
        (system_window_size { width := 800, height := 0, should_close := false }).x
        (system_window_size { width := 800, height := 0, should_close := false }).y
        0 (-1) 1 = none := by
  constructor <;> simp [math_mat4_ortho_checked, system_window_size, checked_div]

/-- C9, amended. For every window whose width and height are both non-zero,
no division of `math_mat4_ortho(0, width, height, 0, -1, 1)` has a zero
divisor, and the checked computation gives the matrix of `math_mat4_ortho`. -/
theorem ortho_nonzero_size_no_zero_divisor (win : Window)
    (hw : win.width ≠ 0) (hh : win.height ≠ 0) :
    math_mat4_ortho_checked 0 (system_window_size win).x (system_window_size win).y 0 (-1) 1
      = some (math_mat4_ortho 0 (system_window_size win).x (system_window_size win).y
          0 (-1) 1) := by
  have h1 : ((win.width : ℚ)) - 0 ≠ 0 := by
    simpa using hw
  have h2 : (0 : ℚ) - (win.height : ℚ) ≠ 0 := by
    simpa using hh
  have h3 : (1 : ℚ) - (-1) ≠ 0 := by norm_num
  simp only [math_mat4_ortho_checked, system_window_size, math_mat4_ortho,
    checked_div_eq_some _ _ h1, checked_div_eq_some _ _ h2, checked_div_eq_some _ _ h3]
  rfl

/-- Witness of C9 (amended) for the 800 by 600 window of `entry_point`. -/
theorem ortho_nonzero_size_no_zero_divisor_witness :
    math_mat4_ortho_checked 0
        (system_window_size { width := 800, height := 600, should_close := false }).x
        (system_window_size { width := 800, height := 600, should_close := false }).y
        0 (-1) 1
      = some (math_mat4_ortho 0
        (system_window_size { width := 800, height := 600, should_close := false }).x
        (system_window_size { width := 800, height := 600, should_close := false }).y
        0 (-1) 1) :=
  ortho_nonzero_size_no_zero_divisor { width := 800, height := 600, should_close := false }
    (by decide) (by decide)

/-- The guard of `entry_point`: a visible window has positive width and
height, so `renderer_frame` is only called there with non-zero sizes. -/
theorem visible_window_has_nonzero_size (win : Window)
    (h : system_window_is_visible win = true) : win.width ≠ 0 ∧ win.height ≠ 0 := by
  simp only [system_window_is_visible, Bool.and_eq_true, decide_eq_true_eq] at h
  omega

/-- With every divisor non-zero the checked computation of the projection
gives the matrix of `math_mat4_ortho`. -/
theorem ortho_checked_of_nonzero (w h : ℚ) (hw : w ≠ 0) (hh : h ≠ 0) :
    math_mat4_ortho_checked 0 w h 0 (-1) 1 = some (math_mat4_ortho 0 w h 0 (-1) 1) := by
  have h1 : w - 0 ≠ 0 := by
    simpa using hw
  have h2 : (0 : ℚ) - h ≠ 0 := by
    simpa using hh
  have h3 : (1 : ℚ) - (-1) ≠ 0 := by norm_num
  simp only [math_mat4_ortho_checked, math_mat4_ortho,
    checked_div_eq_some _ _ h1, checked_div_eq_some _ _ h2, checked_div_eq_some _ _ h3]
  rfl

/-- C10. The identity matrix is a left and a right unit of `math_mat4_mul`, on
all sixteen entries.  Hence, for a window whose width and height are both
non-zero, so that no division of `math_mat4_ortho` has a zero divisor, the
projection that `renderer_frame` stores, `mul(ortho(..), identity)`, is the
matrix `ortho(..)`, and it is the result of the checked computation. -/
theorem mat4_mul_identity_laws (M : mat4) (win : Window) (s : Renderer) :
    math_mat4_mul math_mat4_identity M = M ∧
    math_mat4_mul M math_mat4_identity = M ∧
    (win.width ≠ 0 → win.height ≠ 0 →
      (renderer_frame win s).proj_view =
        math_mat4_ortho 0 (system_window_size win).x (system_window_size win).y 0 (-1) 1 ∧
      math_mat4_ortho_checked 0 (system_window_size win).x (system_window_size win).y 0 (-1) 1
        = some (renderer_frame win s).proj_view) := by
  have hr : ∀ A : mat4, math_mat4_mul A math_mat4_identity = A := by
    intro A
    ext <;> simp [math_mat4_mul, math_mat4_identity]
  have hframe : (renderer_frame win s).proj_view =
      math_mat4_ortho 0 (system_window_size win).x (system_window_size win).y 0 (-1) 1 := by
    simp only [renderer_frame]
    exact hr _
  refine ⟨?_, hr M, ?_⟩
  · ext <;> simp [math_mat4_mul, math_mat4_identity]
  · intro hw hh
    refine ⟨hframe, ?_⟩
    rw [hframe]
    apply ortho_checked_of_nonzero
    · simpa [system_window_size] using hw
    · simpa [system_window_size] using hh

/-- Witness of C10: the projection of `math_mat4_ortho(0, 800, 600, 0, -1, 1)`
as the matrix, and the 800 by 600 window of `entry_point` for the frame. -/
theorem mat4_mul_identity_laws_witness :
    math_mat4_mul math_mat4_identity (math_mat4_ortho 0 800 600 0 (-1) 1)
      = math_mat4_ortho 0 800 600 0 (-1) 1 ∧
    math_mat4_mul (math_mat4_ortho 0 800 600 0 (-1) 1) math_mat4_identity
      = math_mat4_ortho 0 800 600 0 (-1) 1 ∧
    demo_window.width ≠ 0 ∧ demo_window.height ≠ 0 ∧
    (renderer_frame demo_window renderer_zero).proj_view =
      math_mat4_ortho 0 (system_window_size demo_window).x (system_window_size demo_window).y
        0 (-1) 1 ∧
    math_mat4_ortho_checked 0 (system_window_size demo_window).x
        (system_window_size demo_window).y 0 (-1) 1
      = some (renderer_frame demo_window renderer_zero).proj_view :=
  have h := mat4_mul_identity_laws (math_mat4_ortho 0 800 600 0 (-1) 1) demo_window
    renderer_zero
  ⟨h.1, h.2.1, by decide, by decide, (h.2.2 (by decide) (by decide)).1,
    (h.2.2 (by decide) (by decide)).2⟩

/-! ## The batcher: flushing -/

theorem MAX_QUADS_eq : MAX_QUADS = 16384 := rfl

theorem MAX_VERTS_eq : MAX_VERTS = 65536 := rfl

theorem first_vertices_length (s : Renderer) (n : Nat) : (s.first_vertices n).length = n := by
  simp [Renderer.first_vertices]

theorem draw_counts_flush_calls (s : Renderer) :
    draw_counts (flush_calls s) = [(s.curr_quad * 6) % 2 ^ 32] := rfl

theorem texture_binds_flush_calls (s : Renderer) :
    texture_binds (flush_calls s) = [s.hot_image.id] := rfl

theorem vertex_uploads_flush_calls (s : Renderer) :
    vertex_uploads (flush_calls s) = [s.first_vertices s.curr_vert] := rfl

theorem renderer_flush_of_empty (s : Renderer) (h : s.curr_quad = 0) :
    renderer_flush s = s := by
  simp [renderer_flush, h]

theorem renderer_flush_of_nonempty (s : Renderer) (h : s.curr_quad ≠ 0) :
    renderer_flush s = { s with gl := s.gl ++ flush_calls s, curr_quad := 0, curr_vert := 0 } := by
  simp [renderer_flush, h]

theorem renderer_flush_curr_quad (s : Renderer) : (renderer_flush s).curr_quad = 0 := by
  by_cases h : s.curr_quad = 0
  · rw [renderer_flush_of_empty s h, h]
  · rw [renderer_flush_of_nonempty s h]

/-- C6. A flush of an empty batch sends nothing to the driver and leaves the
whole state as it was; so, from any state, a second flush right after a flush
changes nothing: same state, same commands. -/
theorem renderer_flush_empty_noop (s : Renderer) :
    (s.curr_quad = 0 → renderer_flush s = s ∧ (renderer_flush s).gl = s.gl) ∧
    renderer_flush (renderer_flush s) = renderer_flush s ∧
    (renderer_flush (renderer_flush s)).gl = (renderer_flush s).gl := by
  have h2 : renderer_flush (renderer_flush s) = renderer_flush s :=
    renderer_flush_of_empty _ (renderer_flush_curr_quad s)
  refine ⟨?_, h2, by rw [h2]⟩
  intro h
  rw [renderer_flush_of_empty s h]
  exact ⟨rfl, rfl⟩

/-- Witness of C6 at the zero-initialised state, whose batch is empty. -/
theorem renderer_flush_empty_noop_witness :
    renderer_zero.curr_quad = 0 ∧
    renderer_flush renderer_zero = renderer_zero ∧
    (renderer_flush renderer_zero).gl = renderer_zero.gl :=
  ⟨rfl, (renderer_flush_empty_noop renderer_zero).1 rfl⟩

/-- C1. `renderer_set_image(img)` compares texture names.  With a name other
than that of `hot_image` it is one `renderer_flush` of the state that still
has the old `hot_image`, followed by the assignment of `hot_image`: a
non-empty batch is sent as the commands of that one flush, with one draw call
and the old texture bound, and the batch is empty afterwards.  With the same
name nothing is sent, and `curr_quad`, `curr_vert` and the vertices stay. -/
theorem renderer_set_image_flush_policy (s : Renderer) (img : Image) :
    (img.id ≠ s.hot_image.id →
      renderer_set_image img s = { renderer_flush s with hot_image := img } ∧
      (renderer_set_image img s).curr_quad = 0 ∧
      (s.curr_quad ≠ 0 →
        (renderer_set_image img s).gl = s.gl ++ flush_calls s ∧
        draw_counts (flush_calls s) = [(s.curr_quad * 6) % 2 ^ 32] ∧
        texture_binds (flush_calls s) = [s.hot_image.id]) ∧
      (s.curr_quad = 0 → (renderer_set_image img s).gl = s.gl)) ∧
    (img.id = s.hot_image.id →
      renderer_set_image img s = { s with hot_image := img } ∧
      (renderer_set_image img s).gl = s.gl ∧
      (renderer_set_image img s).curr_quad = s.curr_quad ∧
      (renderer_set_image img s).curr_vert = s.curr_vert ∧
      (renderer_set_image img s).vertices = s.vertices) := by
  constructor
  · intro hne
    have h1 : renderer_set_image img s = { renderer_flush s with hot_image := img } := by
      simp [renderer_set_image, hne]
    refine ⟨h1, ?_, ?_, ?_⟩
    · rw [h1]
      exact renderer_flush_curr_quad s
    · intro hq
      rw [h1, renderer_flush_of_nonempty s hq]
      exact ⟨rfl, rfl, rfl⟩
    · intro hq
      rw [h1, renderer_flush_of_empty s hq]
  · intro heq
    have h1 : renderer_set_image img s = { s with hot_image := img } := by
      simp [renderer_set_image, heq]
    rw [h1]
    exact ⟨rfl, rfl, rfl, rfl, rfl⟩

/-- Witness of C1: on a batch of one quad with texture 0 selected, selecting
texture 7 sends the commands of one flush; selecting texture 0 sends nothing. -/
theorem renderer_set_image_flush_policy_witness :
    ((7 : Nat) ≠ one_quad_state.hot_image.id ∧
      (renderer_set_image { id := 7, width := 1, height := 1 } one_quad_state).gl
        = one_quad_state.gl ++ flush_calls one_quad_state) ∧
    ((0 : Nat) = one_quad_state.hot_image.id ∧
      (renderer_set_image { id := 0, width := 1, height := 1 } one_quad_state).gl
        = one_quad_state.gl) :=
  ⟨⟨by decide,
    (((renderer_set_image_flush_policy one_quad_state
        { id := 7, width := 1, height := 1 }).1 (by decide)).2.2.1 (by decide)).1⟩,
   ⟨rfl,
    ((renderer_set_image_flush_policy one_quad_state
        { id := 0, width := 1, height := 1 }).2 rfl).2.1⟩⟩

/-- C5. On a state that satisfies the batch invariant and has a non-empty
batch, `renderer_flush` sends one block of commands in which exactly
`curr_vert` vertices are uploaded (the first `curr_vert` entries of the
array), the texture of `hot_image` is bound, and one `glDrawElements` is
issued with `6 * curr_quad` indices; afterwards both counters are zero, and
`hot_color`, `hot_image`, the projection and the array are as before. -/
theorem renderer_flush_nonempty (s : Renderer) (hinv : BatchInv s) (hq : 0 < s.curr_quad) :
    (renderer_flush s).gl = s.gl ++ flush_calls s ∧
    vertex_uploads (flush_calls s) = [s.first_vertices s.curr_vert] ∧
    (s.first_vertices s.curr_vert).length = s.curr_vert ∧
    texture_binds (flush_calls s) = [s.hot_image.id] ∧
    draw_counts (flush_calls s) = [6 * s.curr_quad] ∧
    (renderer_flush s).curr_quad = 0 ∧
    (renderer_flush s).curr_vert = 0 ∧
    (renderer_flush s).hot_color = s.hot_color ∧
    (renderer_flush s).hot_image = s.hot_image ∧
    (renderer_flush s).proj_view = s.proj_view ∧
    (renderer_flush s).vertices = s.vertices := by
  have hne : s.curr_quad ≠ 0 := Nat.pos_iff_ne_zero.mp hq
  have hle : s.curr_quad ≤ 16384 := hinv.2
  have hcount : (s.curr_quad * 6) % 2 ^ 32 = 6 * s.curr_quad := by
    rw [Nat.mod_eq_of_lt (by omega)]
    omega
  rw [renderer_flush_of_nonempty s hne, draw_counts_flush_calls, hcount]
  exact ⟨rfl, rfl, first_vertices_length s _, rfl, rfl, rfl, rfl, rfl, rfl, rfl, rfl⟩

/-! ## The batcher: submitting quads and the invariant -/

theorem write_vertex_eq (p : Vertex) (s : Renderer) (h : s.curr_vert < MAX_VERTS) :
    write_vertex p s = some { s with vertices := Function.update s.vertices s.curr_vert p,
                                     curr_vert := s.curr_vert + 1 } := by
  have hm : (s.curr_vert + 1) % 2 ^ 32 = s.curr_vert + 1 := by
    rw [MAX_VERTS_eq] at h
    exact Nat.mod_eq_of_lt (by omega)
  unfold write_vertex
  rw [if_pos h, hm]

theorem push_quad_eq (s : Renderer) (q : QuadArgs)
    (hv : s.curr_vert + 4 ≤ MAX_VERTS) (hq : s.curr_quad < MAX_QUADS) :
    renderer_push_quad q.x1 q.y1 q.x2 q.y2 q.u0 q.u1 q.v0 q.v1 s =
      some { s with
        vertices :=
          Function.update (Function.update (Function.update (Function.update s.vertices
            s.curr_vert (make_v s q.x1 q.y1 q.u0 q.v0))
            (s.curr_vert + 1) (make_v s q.x2 q.y1 q.u1 q.v0))
            (s.curr_vert + 2) (make_v s q.x2 q.y2 q.u1 q.v1))
            (s.curr_vert + 3) (make_v s q.x1 q.y2 q.u0 q.v1),
        curr_vert := s.curr_vert + 4,
        curr_quad := s.curr_quad + 1 } := by
  have hq' : ¬ (s.curr_quad ≥ MAX_QUADS) := by omega
  have hm : (s.curr_quad + 1) % 2 ^ 32 = s.curr_quad + 1 := by
    rw [MAX_QUADS_eq] at hq
    exact Nat.mod_eq_of_lt (by omega)
  unfold renderer_push_quad
  simp only [hq', if_false]
  rw [write_vertex_eq _ _ (by omega)]
  simp only [Option.bind_eq_bind, Option.some_bind]
  rw [write_vertex_eq _ _ (by simp only []; omega)]
  simp only [Option.bind_eq_bind, Option.some_bind]
  rw [write_vertex_eq _ _ (by simp only []; omega)]
  simp only [Option.bind_eq_bind, Option.some_bind]
  rw [write_vertex_eq _ _ (by simp only []; omega)]
  simp only [Option.bind_eq_bind, Option.some_bind, hm, pure, make_v]

theorem push_quad_flush_first (s : Renderer) (q : QuadArgs) (hq : s.curr_quad ≥ MAX_QUADS) :
    renderer_push_quad q.x1 q.y1 q.x2 q.y2 q.u0 q.u1 q.v0 q.v1 s =
      renderer_push_quad q.x1 q.y1 q.x2 q.y2 q.u0 q.u1 q.v0 q.v1 (renderer_flush s) := by
  have h0 : ¬ ((renderer_flush s).curr_quad ≥ MAX_QUADS) := by
    rw [renderer_flush_curr_quad, MAX_QUADS_eq]
    omega
  unfold renderer_push_quad
  simp only [hq, h0, if_true, if_false]

theorem renderer_flush_curr_vert (s : Renderer) (h : BatchInv s) :
    (renderer_flush s).curr_vert = 0 := by
  by_cases h0 : s.curr_quad = 0
  · rw [renderer_flush_of_empty s h0, h.1, h0]
  · rw [renderer_flush_of_nonempty s h0]

theorem BatchInv_flush (s : Renderer) (h : BatchInv s) : BatchInv (renderer_flush s) := by
  refine ⟨?_, ?_⟩
  · rw [renderer_flush_curr_vert s h, renderer_flush_curr_quad]
  · rw [renderer_flush_curr_quad]
    exact Nat.zero_le _

theorem BatchInv_of_counts (s t : Renderer) (hv : t.curr_vert = s.curr_vert)
    (hq : t.curr_quad = s.curr_quad) (h : BatchInv s) : BatchInv t := by
  unfold BatchInv at *
  rw [hv, hq]
  exact h

theorem renderer_set_image_of_ne (s : Renderer) (i : Image) (h : i.id ≠ s.hot_image.id) :
    renderer_set_image i s = { renderer_flush s with hot_image := i } := by
  simp [renderer_set_image, h]

theorem renderer_set_image_of_eq (s : Renderer) (i : Image) (h : i.id = s.hot_image.id) :
    renderer_set_image i s = { s with hot_image := i } := by
  simp [renderer_set_image, h]

theorem BatchInv_set_image (s : Renderer) (i : Image) (h : BatchInv s) :
    BatchInv (renderer_set_image i s) := by
  by_cases hne : i.id = s.hot_image.id
  · rw [renderer_set_image_of_eq s i hne]
    exact BatchInv_of_counts s _ rfl rfl h
  · rw [renderer_set_image_of_ne s i hne]
    exact BatchInv_of_counts (renderer_flush s) _ rfl rfl (BatchInv_flush s h)

theorem BatchInv_init (env : GLNames) (s t : Renderer) (h : BatchInv s)
    (ht : renderer_init env s = some t) : BatchInv t := by
  unfold renderer_init at ht
  simp only at ht
  split_ifs at ht
  cases ht
  refine BatchInv_of_counts (renderer_set_image _ _) _ rfl rfl (BatchInv_set_image _ _ ?_)
  exact BatchInv_of_counts s _ rfl rfl h

/-- From a state that satisfies the batch invariant, `renderer_push_quad`
writes inside the array: it returns a state, and that state satisfies the
invariant. -/
theorem push_quad_total (s : Renderer) (q : QuadArgs) (h : BatchInv s) :
    ∃ t, renderer_push_quad q.x1 q.y1 q.x2 q.y2 q.u0 q.u1 q.v0 q.v1 s = some t ∧
      BatchInv t := by
  have key : ∀ r : Renderer, BatchInv r → r.curr_quad < MAX_QUADS →
      ∃ t, renderer_push_quad q.x1 q.y1 q.x2 q.y2 q.u0 q.u1 q.v0 q.v1 r = some t ∧
        BatchInv t := by
    intro r hr hlt
    have h1 := hr.1
    have hv : r.curr_vert + 4 ≤ MAX_VERTS := by
      rw [MAX_VERTS_eq]
      rw [MAX_QUADS_eq] at hlt
      omega
    refine ⟨_, push_quad_eq r q hv hlt, ?_, ?_⟩
    · show r.curr_vert + 4 = 4 * (r.curr_quad + 1)
      omega
    · show r.curr_quad + 1 ≤ MAX_QUADS
      omega
  by_cases hlt : s.curr_quad < MAX_QUADS
  · exact key s h hlt
  · rw [push_quad_flush_first s q (by omega)]
    refine key _ (BatchInv_flush s h) ?_
    rw [renderer_flush_curr_quad, MAX_QUADS_eq]
    omega

theorem BatchInv_step (op : Op) (s t : Renderer) (h : BatchInv s) (ht : step op s = some t) :
    BatchInv t := by
  cases op with
  | init env => exact BatchInv_init env s t h ht
  | frame win =>
    cases ht
    exact BatchInv_of_counts s _ rfl rfl h
  | set_color c =>
    cases ht
    exact BatchInv_of_counts s _ rfl rfl h
  | set_image i =>
    cases ht
    exact BatchInv_set_image s i h
  | push_quad q =>
    obtain ⟨t', ht', hinv⟩ := push_quad_total s q h
    simp only [step] at ht
    rw [ht'] at ht
    cases ht
    exact hinv
  | flush =>
    cases ht
    exact BatchInv_flush s h

theorem BatchInv_run (ops : List Op) (s t : Renderer) (h : BatchInv s)
    (ht : run ops s = some t) : BatchInv t := by
  induction ops generalizing s with
  | nil =>
    cases ht
    exact h
  | cons op ops ih =>
    simp only [run] at ht
    cases hs : step op s with
    | none => rw [hs] at ht; cases ht
    | some s1 =>
      rw [hs] at ht
      exact ih s1 (BatchInv_step op s s1 h hs) ht

theorem BatchInv_zero : BatchInv renderer_zero :=
  ⟨rfl, Nat.zero_le _⟩

theorem attribs_make_v (s : Renderer) (x y u v : ℚ) :
    (make_v s x y u v).attribs =
      { position := [x, y],
        color := [s.hot_color.r, s.hot_color.g, s.hot_color.b, s.hot_color.a],
        texcoords := [u, v] } := by
  simp [Vertex.attribs, read_attrib, Vertex.floats, make_v, sizeof_float]

theorem map_range_update4 {α : Type} (f : Nat → α) (n : Nat) (a b c d : α) :
    (List.range (n + 4)).map
        (Function.update (Function.update (Function.update (Function.update f n a)
          (n + 1) b) (n + 2) c) (n + 3) d)
      = (List.range n).map f ++ [a, b, c, d] := by
  have h4 : List.range (n + 4) = List.range n ++ [n, n + 1, n + 2, n + 3] := by
    rw [show n + 4 = n + 3 + 1 from rfl, List.range_succ, show n + 3 = n + 2 + 1 from rfl,
      List.range_succ, show n + 2 = n + 1 + 1 from rfl, List.range_succ, List.range_succ]
    simp
  rw [h4, List.map_append]
  congr 1
  · apply List.map_congr_left
    intro i hi
    have hi' : i < n := List.mem_range.mp hi
    rw [Function.update_noteq (by omega), Function.update_noteq (by omega),
      Function.update_noteq (by omega), Function.update_noteq (by omega)]
  · simp [Function.update_apply]

/-- C4. In a state that satisfies the batch invariant and holds fewer than
`MAX_QUADS` quads, `renderer_push_quad` returns a state in which the array
entries `curr_vert .. curr_vert + 3` are, as read through the attribute
pointers of `renderer_flush`, position `(x1,y1)` with texture coordinate
`(u0,v0)`, `(x2,y1)` with `(u1,v0)`, `(x2,y2)` with `(u1,v1)`, `(x1,y2)` with
`(u0,v1)`, each with the colour `hot_color`; every other entry is unchanged,
`curr_vert` grows by four and `curr_quad` by one, and nothing is sent to the
driver. -/
theorem push_quad_vertex_packing (s : Renderer) (x1 y1 x2 y2 u0 u1 v0 v1 : ℚ)
    (hinv : BatchInv s) (hlt : s.curr_quad < MAX_QUADS) :
    ∃ t, renderer_push_quad x1 y1 x2 y2 u0 u1 v0 v1 s = some t ∧
      t.curr_vert = s.curr_vert + 4 ∧
      t.curr_quad = s.curr_quad + 1 ∧
      (t.vertices s.curr_vert).attribs =
        { position := [x1, y1],
          color := [s.hot_color.r, s.hot_color.g, s.hot_color.b, s.hot_color.a],
          texcoords := [u0, v0] } ∧
      (t.vertices (s.curr_vert + 1)).attribs =
        { position := [x2, y1],
          color := [s.hot_color.r, s.hot_color.g, s.hot_color.b, s.hot_color.a],
          texcoords := [u1, v0] } ∧
      (t.vertices (s.curr_vert + 2)).attribs =
        { position := [x2, y2],
          color := [s.hot_color.r, s.hot_color.g, s.hot_color.b, s.hot_color.a],
          texcoords := [u1, v1] } ∧
      (t.vertices (s.curr_vert + 3)).attribs =
        { position := [x1, y2],
          color := [s.hot_color.r, s.hot_color.g, s.hot_color.b, s.hot_color.a],
          texcoords := [u0, v1] } ∧
      (∀ i, i < s.curr_vert ∨ s.curr_vert + 4 ≤ i → t.vertices i = s.vertices i) ∧
      t.gl = s.gl ∧ t.hot_color = s.hot_color ∧ t.hot_image = s.hot_image := by
  have hv : s.curr_vert + 4 ≤ MAX_VERTS := by
    have h1 := hinv.1
    rw [MAX_VERTS_eq]
    rw [MAX_QUADS_eq] at hlt
    omega
  have hp := push_quad_eq s
    { x1 := x1, y1 := y1, x2 := x2, y2 := y2, u0 := u0, u1 := u1, v0 := v0, v1 := v1 } hv hlt
  simp only at hp
  refine ⟨_, hp, rfl, rfl, ?_, ?_, ?_, ?_, ?_, rfl, rfl, rfl⟩
  · simp only [Function.update_apply]
    simp [attribs_make_v]
  · simp only [Function.update_apply]
    simp [attribs_make_v]
  · simp only [Function.update_apply]
    simp [attribs_make_v]
  · simp only [Function.update_apply]
    simp [attribs_make_v]
  · intro i hi
    show Function.update _ _ _ i = _
    rw [Function.update_noteq (by omega), Function.update_noteq (by omega),
      Function.update_noteq (by omega), Function.update_noteq (by omega)]

/-- Witness of C4: the quad of `entry_point` submitted to the zero-initialised
state, whose `hot_color` is all zero. -/
theorem push_quad_vertex_packing_witness :
    BatchInv renderer_zero ∧ renderer_zero.curr_quad < MAX_QUADS ∧
    ∃ t, renderer_push_quad 0 0 250 250 0 1 0 1 renderer_zero = some t ∧
      t.curr_vert = 0 + 4 ∧
      t.curr_quad = 0 + 1 ∧
      (t.vertices 0).attribs =
        { position := [0, 0], color := [0, 0, 0, 0], texcoords := [0, 0] } ∧
      (t.vertices (0 + 1)).attribs =
        { position := [250, 0], color := [0, 0, 0, 0], texcoords := [1, 0] } ∧
      (t.vertices (0 + 2)).attribs =
        { position := [250, 250], color := [0, 0, 0, 0], texcoords := [1, 1] } ∧
      (t.vertices (0 + 3)).attribs =
        { position := [0, 250], color := [0, 0, 0, 0], texcoords := [0, 1] } ∧
      (∀ i, i < 0 ∨ 0 + 4 ≤ i → t.vertices i = renderer_zero.vertices i) ∧
      t.gl = renderer_zero.gl ∧ t.hot_color = renderer_zero.hot_color ∧
      t.hot_image = renderer_zero.hot_image :=
  ⟨BatchInv_zero, by decide,
    push_quad_vertex_packing renderer_zero 0 0 250 250 0 1 0 1 BatchInv_zero (by decide)⟩

/-- C2. Every state reached from the zero-initialised state by a sequence of
`renderer_init`, `renderer_frame`, `renderer_set_color`, `renderer_set_image`,
`renderer_push_quad` and `renderer_flush` calls has `curr_vert = 4 * curr_quad`
and `curr_quad ≤ MAX_QUADS`; hence the last index a further
`renderer_push_quad` writes is below `MAX_VERTS`, and that call returns a
state. -/
theorem batch_invariant_reachable (ops : List Op) (s : Renderer)
    (h : run ops renderer_zero = some s) :
    s.curr_vert = 4 * s.curr_quad ∧
    s.curr_quad ≤ MAX_QUADS ∧
    (if s.curr_quad ≥ MAX_QUADS then renderer_flush s else s).curr_vert + 3 < MAX_VERTS ∧
    ∀ q : QuadArgs, ∃ t, step (Op.push_quad q) s = some t := by
  have hinv : BatchInv s := BatchInv_run ops renderer_zero s BatchInv_zero h
  refine ⟨hinv.1, hinv.2, ?_, ?_⟩
  · by_cases hq : s.curr_quad ≥ MAX_QUADS
    · rw [if_pos hq, renderer_flush_curr_vert s hinv, MAX_VERTS_eq]
      omega
    · rw [if_neg hq, MAX_VERTS_eq]
      have h1 := hinv.1
      rw [MAX_QUADS_eq] at hq
      omega
  · intro q
    obtain ⟨t, ht, _⟩ := push_quad_total s q hinv
    exact ⟨t, ht⟩

/-- Witness of C2: the state after initialising, beginning a frame and
submitting one quad. -/
theorem batch_invariant_reachable_witness :
    run demo_ops renderer_zero = some demo_state ∧
    demo_state.curr_vert = 4 * demo_state.curr_quad ∧
    demo_state.curr_quad ≤ MAX_QUADS :=
  ⟨rfl, (batch_invariant_reachable demo_ops demo_state rfl).1,
    (batch_invariant_reachable demo_ops demo_state rfl).2.1⟩

/-- Witness of C5, the end-to-end run: after `renderer_init`, a frame at
800 by 600 and `push_quad(0, 0, 250, 250, 0, 1, 0, 1)`, the flush uploads 4
vertices, binds the white texture and issues one draw call with 6 indices. -/
theorem renderer_flush_nonempty_witness :
    BatchInv demo_state ∧ 0 < demo_state.curr_quad ∧
    (renderer_flush demo_state).gl = demo_state.gl ++ flush_calls demo_state ∧
    (vertex_uploads (flush_calls demo_state)).map List.length = [4] ∧
    texture_binds (flush_calls demo_state) = [demo_env.texture] ∧
    draw_counts (flush_calls demo_state) = [6] ∧
    (renderer_flush demo_state).curr_quad = 0 ∧
    (renderer_flush demo_state).curr_vert = 0 :=
  have h := renderer_flush_nonempty demo_state ⟨rfl, by decide⟩ (by decide)
  ⟨⟨rfl, by decide⟩, by decide, h.1, rfl, h.2.2.2.1, h.2.2.2.2.1, h.2.2.2.2.2.1,
    h.2.2.2.2.2.2.1⟩

/-- The end-to-end run as a whole: the commands sent from start-up to the
flush contain exactly one draw call, with 6 indices. -/
theorem demo_run_one_draw_call :
    draw_counts ((run (demo_ops ++ [Op.flush]) renderer_zero).getD renderer_zero).gl = [6] :=
  rfl

/-! ## The batcher seen from the driver -/

theorem drawn_quads_append (g : GLDrawState) (a b : List GLCall) :
    drawn_quads g (a ++ b) = drawn_quads g a ++ drawn_quads (gl_state_after g a) b := by
  induction a generalizing g with
  | nil => rfl
  | cons c cs ih =>
    simp only [List.cons_append, drawn_quads, gl_state_after, List.append_eq, ih,
      List.append_assoc]

theorem quads_of_buffer_append (n m : Nat) (L R : List Vertex) (tex : Nat)
    (hL : L.length = 4 * n) :
    quads_of_buffer (n + m) (L ++ R) tex =
      quads_of_buffer n L tex ++ quads_of_buffer m R tex := by
  induction n generalizing L with
  | zero =>
    have hnil : L = [] := List.length_eq_zero.mp (by omega)
    subst hnil
    simp [quads_of_buffer]
  | succ k ih =>
    match L, hL with
    | a :: b :: c :: d :: L', hL' =>
      have hlen : L'.length = 4 * k := by
        simp only [List.length_cons] at hL'
        omega
      have hk : k + 1 + m = (k + m) + 1 := by omega
      rw [hk]
      simp only [List.cons_append, quads_of_buffer, List.append_eq, ih L' hlen]
    | [], hL' => simp at hL'
    | [_], hL' => simp at hL'; omega
    | [_, _], hL' => simp at hL'; omega
    | [_, _, _], hL' => simp at hL'; omega

theorem quads_of_buffer_zero (L : List Vertex) (tex : Nat) : quads_of_buffer 0 L tex = [] := by
  cases L <;> rfl

theorem quads_of_quad_vertices (s : Renderer) (q : QuadArgs) :
    quads_of_buffer 1 (quad_vertices s q) s.hot_image.id
      = [spec_quad s.hot_color s.hot_image q] := by
  simp [quad_vertices, quads_of_buffer, spec_quad, attribs_make_v]

/-- The commands of a flush draw the quads waiting in the batch, whatever the
driver state was before. -/
theorem drawn_quads_flush_calls (s : Renderer) (g : GLDrawState) (h : BatchInv s) :
    drawn_quads g (flush_calls s) = pending_quads s := by
  have hle : s.curr_quad ≤ 16384 := h.2
  have hcount : (s.curr_quad * 6) % 2 ^ 32 / 6 = s.curr_quad := by
    rw [Nat.mod_eq_of_lt (by omega)]
    omega
  have hlen : (s.first_vertices s.curr_vert).length = 4 * s.curr_quad := by
    rw [first_vertices_length, h.1]
  have := quads_of_buffer_append s.curr_quad 0 (s.first_vertices s.curr_vert)
    (g.vbo_data.drop (0 / sizeof_Vertex + (s.first_vertices s.curr_vert).length))
    s.hot_image.id hlen
  simp only [flush_calls, drawn_quads, gl_exec, List.nil_append, List.append_nil, hcount,
    Nat.zero_div, List.take_zero, pending_quads]
  rw [Nat.add_zero, quads_of_buffer_zero, List.append_nil] at this
  simpa using this

/-- A flush, seen from the driver: its commands draw exactly the waiting quads
and leave the batch empty. -/
theorem flush_sim (s : Renderer) (h : BatchInv s) :
    ∃ calls, (renderer_flush s).gl = s.gl ++ calls ∧
      (∀ g, drawn_quads g calls = pending_quads s) ∧
      pending_quads (renderer_flush s) = [] := by
  have hp : pending_quads (renderer_flush s) = [] := by
    unfold pending_quads
    rw [renderer_flush_curr_quad]
    exact quads_of_buffer_zero _ _
  by_cases h0 : s.curr_quad = 0
  · refine ⟨[], ?_, ?_, hp⟩
    · rw [renderer_flush_of_empty s h0, List.append_nil]
    · intro g
      unfold pending_quads
      rw [h0]
      exact (quads_of_buffer_zero _ _).symm
  · refine ⟨flush_calls s, ?_, ?_, hp⟩
    · rw [renderer_flush_of_nonempty s h0]
    · intro g
      exact drawn_quads_flush_calls s g h

/-- A submission that needs no flush, seen from the batch: the new quad joins
the waiting quads and nothing is sent. -/
theorem push_sim (s : Renderer) (q : QuadArgs) (h : BatchInv s) (hlt : s.curr_quad < MAX_QUADS) :
    ∃ t, renderer_push_quad q.x1 q.y1 q.x2 q.y2 q.u0 q.u1 q.v0 q.v1 s = some t ∧
      BatchInv t ∧ t.gl = s.gl ∧ t.hot_color = s.hot_color ∧ t.hot_image = s.hot_image ∧
      t.curr_quad = s.curr_quad + 1 ∧ t.curr_vert = s.curr_vert + 4 ∧
      pending_quads t = pending_quads s ++ [spec_quad s.hot_color s.hot_image q] ∧
      t.first_vertices t.curr_vert = s.first_vertices s.curr_vert ++ quad_vertices s q := by
  have h1 := h.1
  have hv : s.curr_vert + 4 ≤ MAX_VERTS := by
    rw [MAX_VERTS_eq]
    rw [MAX_QUADS_eq] at hlt
    omega
  refine ⟨_, push_quad_eq s q hv hlt, ⟨?_, ?_⟩, rfl, rfl, rfl, rfl, rfl, ?_,
    map_range_update4 _ _ _ _ _ _⟩
  · show s.curr_vert + 4 = 4 * (s.curr_quad + 1)
    omega
  · show s.curr_quad + 1 ≤ MAX_QUADS
    omega
  · have hlen : (s.first_vertices s.curr_vert).length = 4 * s.curr_quad := by
      rw [first_vertices_length, h1]
    show quads_of_buffer (s.curr_quad + 1)
        ((List.range (s.curr_vert + 4)).map (Function.update (Function.update (Function.update
          (Function.update s.vertices s.curr_vert _) (s.curr_vert + 1) _)
          (s.curr_vert + 2) _) (s.curr_vert + 3) _)) s.hot_image.id = _
    rw [map_range_update4]
    have := quads_of_buffer_append s.curr_quad 1 (s.first_vertices s.curr_vert)
      (quad_vertices s q) s.hot_image.id hlen
    rw [quads_of_quad_vertices] at this
    exact this

/-- One call of the drawing interface, seen from the driver: what it draws,
followed by what is then waiting, is what was waiting followed by what the
renderer without batching draws for that call. -/
theorem step_sim (op : Op) (s : Renderer) (hd : op.is_draw_op = true) (h : BatchInv s) :
    ∃ t calls, step op s = some t ∧ BatchInv t ∧ t.gl = s.gl ++ calls ∧
      ∀ g rest, drawn_quads g calls ++ (pending_quads t ++
          naive_draw rest t.hot_color t.hot_image)
        = pending_quads s ++ naive_draw (op :: rest) s.hot_color s.hot_image := by
  cases op with
  | init env => simp [Op.is_draw_op] at hd
  | frame win => simp [Op.is_draw_op] at hd
  | set_color c =>
    refine ⟨renderer_set_color c s, [], rfl, BatchInv_of_counts s _ rfl rfl h, ?_, ?_⟩
    · simp [renderer_set_color]
    · intro g rest
      rfl
  | set_image i =>
    by_cases hid : i.id = s.hot_image.id
    · refine ⟨renderer_set_image i s, [], rfl, BatchInv_set_image s i h, ?_, ?_⟩
      · rw [renderer_set_image_of_eq s i hid, List.append_nil]
      · intro g rest
        rw [renderer_set_image_of_eq s i hid]
        simp only [drawn_quads, List.nil_append, naive_draw]
        congr 1
        simp only [pending_quads, Renderer.first_vertices, hid]
    · obtain ⟨calls, hgl, hdraw, hpend⟩ := flush_sim s h
      refine ⟨renderer_set_image i s, calls, rfl, BatchInv_set_image s i h, ?_, ?_⟩
      · rw [renderer_set_image_of_ne s i hid]
        exact hgl
      · intro g rest
        have hcol' : (renderer_flush s).hot_color = s.hot_color := by
          unfold renderer_flush
          split <;> rfl
        rw [renderer_set_image_of_ne s i hid, hdraw g]
        have hp : pending_quads { renderer_flush s with hot_image := i } = [] := by
          unfold pending_quads
          show quads_of_buffer (renderer_flush s).curr_quad _ _ = []
          rw [renderer_flush_curr_quad]
          exact quads_of_buffer_zero _ _
        rw [hp]
        simp only [List.nil_append, naive_draw, hcol']
  | push_quad q =>
    by_cases hlt : s.curr_quad < MAX_QUADS
    · obtain ⟨t, ht, hinv, hgl, hcol, himg, _, _, hpend, _⟩ := push_sim s q h hlt
      refine ⟨t, [], ht, hinv, ?_, ?_⟩
      · rw [hgl, List.append_nil]
      · intro g rest
        rw [hpend, hcol, himg]
        simp only [drawn_quads, List.nil_append, naive_draw, List.append_assoc,
          List.singleton_append]
    · obtain ⟨calls, hgl, hdraw, hpend⟩ := flush_sim s h
      have hlt' : (renderer_flush s).curr_quad < MAX_QUADS := by
        rw [renderer_flush_curr_quad, MAX_QUADS_eq]
        omega
      obtain ⟨t, ht, hinv, hgl', hcol, himg, _, _, hpend', _⟩ :=
        push_sim (renderer_flush s) q (BatchInv_flush s h) hlt'
      have hcol' : (renderer_flush s).hot_color = s.hot_color := by
        unfold renderer_flush
        split <;> rfl
      have himg' : (renderer_flush s).hot_image = s.hot_image := by
        unfold renderer_flush
        split <;> rfl
      refine ⟨t, calls, ?_, hinv, ?_, ?_⟩
      · show renderer_push_quad _ _ _ _ _ _ _ _ s = some t
        rw [push_quad_flush_first s q (by omega)]
        exact ht
      · rw [hgl', hgl]
      · intro g rest
        rw [hdraw g, hpend', hpend, hcol, himg, hcol', himg']
        simp only [List.nil_append, naive_draw, List.singleton_append]
  | flush =>
    obtain ⟨calls, hgl, hdraw, hpend⟩ := flush_sim s h
    have hcol' : (renderer_flush s).hot_color = s.hot_color := by
      unfold renderer_flush
      split <;> rfl
    have himg' : (renderer_flush s).hot_image = s.hot_image := by
      unfold renderer_flush
      split <;> rfl
    refine ⟨renderer_flush s, calls, rfl, BatchInv_flush s h, hgl, ?_⟩
    intro g rest
    rw [hdraw g, hpend, hcol', himg']
    simp only [List.nil_append, naive_draw]

theorem run_sim (ops : List Op) (s : Renderer) (hd : ops.all Op.is_draw_op = true)
    (h : BatchInv s) :
    ∃ t calls, run ops s = some t ∧ BatchInv t ∧ t.gl = s.gl ++ calls ∧
      ∀ g, drawn_quads g calls ++ pending_quads t
        = pending_quads s ++ naive_draw ops s.hot_color s.hot_image := by
  induction ops generalizing s with
  | nil =>
    refine ⟨s, [], rfl, h, (List.append_nil _).symm, ?_⟩
    intro g
    simp [drawn_quads, naive_draw]
  | cons op ops ih =>
    simp only [List.all_cons, Bool.and_eq_true] at hd
    obtain ⟨s1, c1, hs1, hinv1, hgl1, hsim1⟩ := step_sim op s hd.1 h
    obtain ⟨t, c2, ht, hinvt, hglt, hsimt⟩ := ih s1 hd.2 hinv1
    refine ⟨t, c1 ++ c2, ?_, hinvt, ?_, ?_⟩
    · simp only [run, hs1, Option.some_bind]
      exact ht
    · rw [hglt, hgl1, List.append_assoc]
    · intro g
      rw [drawn_quads_append, List.append_assoc, hsimt (gl_state_after g c1)]
      exact hsim1 g ops

/-! ## Capacity, and the order of drawing -/

theorem run_append (a b : List Op) (s : Renderer) :
    run (a ++ b) s = (run a s).bind (run b) := by
  induction a generalizing s with
  | nil => rfl
  | cons op ops ih =>
    simp only [List.cons_append, run]
    cases step op s with
    | none => rfl
    | some s1 => simp only [Option.some_bind, List.append_eq, ih]

theorem run_pushes (qs : List QuadArgs) (s : Renderer) (h : BatchInv s)
    (hcap : s.curr_quad + qs.length ≤ MAX_QUADS) :
    ∃ t, run (qs.map Op.push_quad) s = some t ∧ BatchInv t ∧ t.gl = s.gl ∧
      t.curr_quad = s.curr_quad + qs.length ∧
      t.hot_color = s.hot_color ∧ t.hot_image = s.hot_image := by
  induction qs generalizing s with
  | nil => exact ⟨s, rfl, h, rfl, rfl, rfl, rfl⟩
  | cons q qs ih =>
    simp only [List.length_cons] at hcap
    obtain ⟨s1, hs1, hinv1, hgl1, hcol1, himg1, hq1, _, _⟩ := push_sim s q h (by omega)
    obtain ⟨t, ht, hinvt, hglt, hqt, hcolt, himgt⟩ := ih s1 hinv1 (by omega)
    refine ⟨t, ?_, hinvt, ?_, ?_, ?_, ?_⟩
    · simp only [List.map_cons, run, step, hs1, Option.some_bind]
      exact ht
    · rw [hglt, hgl1]
    · rw [hqt, hq1, List.length_cons]
      omega
    · rw [hcolt, hcol1]
    · rw [himgt, himg1]

theorem quad_vertices_congr (s t : Renderer) (q : QuadArgs) (h : t.hot_color = s.hot_color) :
    quad_vertices t q = quad_vertices s q := by
  simp only [quad_vertices, make_v, h]

theorem renderer_flush_hot (s : Renderer) :
    (renderer_flush s).hot_color = s.hot_color ∧ (renderer_flush s).hot_image = s.hot_image := by
  unfold renderer_flush
  split <;> exact ⟨rfl, rfl⟩

/-- C3. From an empty batch, `MAX_QUADS` consecutive `renderer_push_quad`
calls send nothing to the driver and fill the batch (`curr_quad = MAX_QUADS`);
the next `renderer_push_quad` sends the commands of exactly one flush, whose
single draw call has `6 * MAX_QUADS` indices, and leaves `curr_quad = 1`,
`curr_vert = 4`, the live part of the array being the four vertices of the
new quad. -/
theorem capacity_triggers_one_flush (s : Renderer) (qs : List QuadArgs) (q : QuadArgs)
    (hq : s.curr_quad = 0) (hv : s.curr_vert = 0) (hlen : qs.length = MAX_QUADS) :
    ∃ s1 s2, run (qs.map Op.push_quad) s = some s1 ∧
      s1.gl = s.gl ∧ s1.curr_quad = MAX_QUADS ∧
      step (Op.push_quad q) s1 = some s2 ∧
      s2.gl = s.gl ++ flush_calls s1 ∧
      draw_counts (flush_calls s1) = [6 * MAX_QUADS] ∧
      s2.curr_quad = 1 ∧ s2.curr_vert = 4 ∧
      s2.first_vertices s2.curr_vert = quad_vertices s q ∧
      pending_quads s2 = [spec_quad s.hot_color s.hot_image q] := by
  have hinv : BatchInv s := ⟨by rw [hv, hq], by rw [hq]; exact Nat.zero_le _⟩
  obtain ⟨s1, hs1, hinv1, hgl1, hq1, hcol1, himg1⟩ := run_pushes qs s hinv (by omega)
  rw [hq, Nat.zero_add, hlen] at hq1
  have hne : s1.curr_quad ≠ 0 := by
    rw [hq1, MAX_QUADS_eq]
    omega
  have hfl := renderer_flush_of_nonempty s1 hne
  have hlt : (renderer_flush s1).curr_quad < MAX_QUADS := by
    rw [renderer_flush_curr_quad, MAX_QUADS_eq]
    omega
  have hv0 : (renderer_flush s1).curr_vert = 0 := renderer_flush_curr_vert s1 hinv1
  have hcol' : (renderer_flush s1).hot_color = s.hot_color := by
    rw [(renderer_flush_hot s1).1, hcol1]
  have himg' : (renderer_flush s1).hot_image = s.hot_image := by
    rw [(renderer_flush_hot s1).2, himg1]
  have hpend0 : pending_quads (renderer_flush s1) = [] := by
    unfold pending_quads
    rw [renderer_flush_curr_quad]
    exact quads_of_buffer_zero _ _
  obtain ⟨s2, hs2, _, hgl2, _, _, hq2, hv2, hpend2, hpre2⟩ :=
    push_sim (renderer_flush s1) q (BatchInv_flush s1 hinv1) hlt
  have hcount : (s1.curr_quad * 6) % 2 ^ 32 = 6 * MAX_QUADS := by
    rw [hq1, MAX_QUADS_eq]
    norm_num
  refine ⟨s1, s2, hs1, hgl1, hq1, ?_, ?_, ?_, ?_, ?_, ?_, ?_⟩
  · show renderer_push_quad _ _ _ _ _ _ _ _ s1 = _
    rw [push_quad_flush_first s1 q (by omega)]
    exact hs2
  · rw [hgl2, hfl, hgl1]
  · rw [draw_counts_flush_calls, hcount]
  · rw [hq2, renderer_flush_curr_quad]
  · rw [hv2, hv0]
  · rw [hpre2, hv0, quad_vertices_congr s (renderer_flush s1) q hcol']
    rfl
  · rw [hpend2, hpend0, hcol', himg']
    rfl

/-- Witness of C3: `MAX_QUADS` copies of the quad of `entry_point`, then one
more, from the zero-initialised state. -/
theorem capacity_triggers_one_flush_witness :
    renderer_zero.curr_quad = 0 ∧ renderer_zero.curr_vert = 0 ∧
    (List.replicate MAX_QUADS demo_quad).length = MAX_QUADS ∧
    ∃ s1 s2, run ((List.replicate MAX_QUADS demo_quad).map Op.push_quad) renderer_zero = some s1 ∧
      s1.gl = renderer_zero.gl ∧ s1.curr_quad = MAX_QUADS ∧
      step (Op.push_quad demo_quad) s1 = some s2 ∧
      s2.gl = renderer_zero.gl ++ flush_calls s1 ∧
      draw_counts (flush_calls s1) = [6 * MAX_QUADS] ∧
      s2.curr_quad = 1 ∧ s2.curr_vert = 4 ∧
      s2.first_vertices s2.curr_vert = quad_vertices renderer_zero demo_quad ∧
      pending_quads s2 = [spec_quad renderer_zero.hot_color renderer_zero.hot_image demo_quad] :=
  ⟨rfl, rfl, List.length_replicate _ _,
    capacity_triggers_one_flush renderer_zero (List.replicate MAX_QUADS demo_quad) demo_quad
      rfl rfl (List.length_replicate _ _)⟩

/-- The run of a closed drawing sequence, seen from the driver. -/
theorem closed_run_sim (ops : List Op) (s : Renderer) (g : GLDrawState)
    (hd : ops.all Op.is_draw_op = true) (hq : s.curr_quad = 0) (hv : s.curr_vert = 0) :
    ∃ t calls, run (ops ++ [Op.flush]) s = some t ∧ t.gl = s.gl ++ calls ∧
      t.curr_quad = 0 ∧
      drawn_quads g calls = naive_draw (ops ++ [Op.flush]) s.hot_color s.hot_image := by
  have hinv : BatchInv s := ⟨by rw [hv, hq], by rw [hq]; exact Nat.zero_le _⟩
  have hd' : (ops ++ [Op.flush]).all Op.is_draw_op = true := by
    rw [List.all_append, hd]
    rfl
  obtain ⟨t, calls, ht, _, hgl, hsim⟩ := run_sim (ops ++ [Op.flush]) s hd' hinv
  have ht0 : t.curr_quad = 0 := by
    rw [run_append] at ht
    cases hr : run ops s with
    | none => rw [hr] at ht; cases ht
    | some t1 =>
      rw [hr] at ht
      simp only [Option.some_bind, run, step] at ht
      cases ht
      exact renderer_flush_curr_quad t1
  refine ⟨t, calls, ht, hgl, ht0, ?_⟩
  have h1 := hsim g
  have hps : pending_quads s = [] := by
    unfold pending_quads
    rw [hq]
    exact quads_of_buffer_zero _ _
  have hpt : pending_quads t = [] := by
    unfold pending_quads
    rw [ht0]
    exact quads_of_buffer_zero _ _
  rw [hps, hpt, List.append_nil, List.nil_append] at h1
  exact h1

/-- C7. For every sequence of `renderer_set_color`, `renderer_set_image`,
`renderer_push_quad` and `renderer_flush` calls that starts from an empty
batch and is closed by a `renderer_flush`, the run returns a state, and the
quads drawn by the commands it sent (each draw call's quads in buffer order,
draw calls in the order issued, every quad with the texture bound for its draw
call) are exactly the quads that the renderer without batching draws: the
submitted quads in submission order, each with the corners, texture
coordinates, colour and texture selected when it was submitted. -/
theorem batching_preserves_submission_order (ops : List Op) (s : Renderer) (g : GLDrawState)
    (hd : ops.all Op.is_draw_op = true) (hq : s.curr_quad = 0) (hv : s.curr_vert = 0) :
    drawn_by_run g (ops ++ [Op.flush]) s =
      some (naive_draw (ops ++ [Op.flush]) s.hot_color s.hot_image) := by
  obtain ⟨t, calls, ht, hgl, _, hdrawn⟩ := closed_run_sim ops s g hd hq hv
  unfold drawn_by_run
  rw [ht, Option.map_some', hgl, List.drop_left, hdrawn]

/-- The renderer without batching draws one quad per submission: none lost,
none repeated. -/
theorem naive_draw_length (ops : List Op) (col : Color) (img : Image) :
    (naive_draw ops col img).length =
      (ops.filter (fun op => match op with | Op.push_quad _ => true | _ => false)).length := by
  induction ops generalizing col img with
  | nil => rfl
  | cons op ops ih =>
    cases op <;> simp [naive_draw, ih]

/-- Witness of C7: three submissions with two colour changes and a texture
change between them, from the zero-initialised state. -/
theorem batching_preserves_submission_order_witness :
    demo_draw_ops.all Op.is_draw_op = true ∧
    renderer_zero.curr_quad = 0 ∧ renderer_zero.curr_vert = 0 ∧
    drawn_by_run gl_draw_state_zero (demo_draw_ops ++ [Op.flush]) renderer_zero =
      some (naive_draw (demo_draw_ops ++ [Op.flush]) renderer_zero.hot_color
        renderer_zero.hot_image) :=
  ⟨rfl, rfl, rfl,
    batching_preserves_submission_order demo_draw_ops renderer_zero gl_draw_state_zero
      rfl rfl rfl⟩

/-- The example sequence is sent as two draw calls: one quad with texture 0,
then two quads with texture 7. -/
theorem demo_draw_ops_draw_counts :
    draw_counts ((run (demo_draw_ops ++ [Op.flush]) renderer_zero).getD renderer_zero).gl
      = [6, 12] :=
  rfl

/-- The fields of `Vertex` by name after `make_v`: the positional initialiser
puts the colour into the fields declared third to sixth and the texture
coordinate into the last two, which is where the attribute pointers of
`renderer_flush` read them. -/
theorem make_v_fields (s : Renderer) (x y u v : ℚ) :
    (make_v s x y u v).floats =
      [x, y, s.hot_color.r, s.hot_color.g, s.hot_color.b, s.hot_color.a, u, v] :=
  rfl

/-! ## The static index array, and the transpose -/

theorem MAX_INDXS_eq : MAX_INDXS = 98304 := rfl

/-- One pass of the index loop writes the six entries `i .. i + 5` and no
other. -/
theorem init_indxs_body_spec (v i : Nat) (a : Nat → Nat)
    (hv : v + 3 < 2 ^ 32) (hi : i + 5 < 2 ^ 32) :
    init_indxs_body v i a i = v ∧
    init_indxs_body v i a (i + 1) = v + 1 ∧
    init_indxs_body v i a (i + 2) = v + 2 ∧
    init_indxs_body v i a (i + 3) = v ∧
    init_indxs_body v i a (i + 4) = v + 2 ∧
    init_indxs_body v i a (i + 5) = v + 3 ∧
    ∀ j, j < i ∨ i + 6 ≤ j → init_indxs_body v i a j = a j := by
  have e0 : (i + 0) % 2 ^ 32 = i := Nat.mod_eq_of_lt (by omega)
  have e1 : (i + 1) % 2 ^ 32 = i + 1 := Nat.mod_eq_of_lt (by omega)
  have e2 : (i + 2) % 2 ^ 32 = i + 2 := Nat.mod_eq_of_lt (by omega)
  have e3 : (i + 3) % 2 ^ 32 = i + 3 := Nat.mod_eq_of_lt (by omega)
  have e4 : (i + 4) % 2 ^ 32 = i + 4 := Nat.mod_eq_of_lt (by omega)
  have e5 : (i + 5) % 2 ^ 32 = i + 5 := Nat.mod_eq_of_lt (by omega)
  have w0 : (v + 0) % 2 ^ 32 = v := Nat.mod_eq_of_lt (by omega)
  have w1 : (v + 1) % 2 ^ 32 = v + 1 := Nat.mod_eq_of_lt (by omega)
  have w2 : (v + 2) % 2 ^ 32 = v + 2 := Nat.mod_eq_of_lt (by omega)
  have w3 : (v + 3) % 2 ^ 32 = v + 3 := Nat.mod_eq_of_lt (by omega)
  unfold init_indxs_body
  rw [e0, e1, e2, e3, e4, e5, w0, w1, w2, w3]
  refine ⟨?_, ?_, ?_, ?_, ?_, ?_, ?_⟩
  · rw [Function.update_noteq (by omega), Function.update_noteq (by omega),
      Function.update_noteq (by omega), Function.update_noteq (by omega),
      Function.update_noteq (by omega), Function.update_same]
  · rw [Function.update_noteq (by omega), Function.update_noteq (by omega),
      Function.update_noteq (by omega), Function.update_noteq (by omega),
      Function.update_same]
  · rw [Function.update_noteq (by omega), Function.update_noteq (by omega),
      Function.update_noteq (by omega), Function.update_same]
  · rw [Function.update_noteq (by omega), Function.update_noteq (by omega),
      Function.update_same]
  · rw [Function.update_noteq (by omega), Function.update_same]
  · rw [Function.update_same]
  · intro j hj
    rw [Function.update_noteq (by omega), Function.update_noteq (by omega),
      Function.update_noteq (by omega), Function.update_noteq (by omega),
      Function.update_noteq (by omega), Function.update_noteq (by omega)]

/-- The index loop entered at quad number `k` with enough fuel for the
remaining passes: it fills the entries of the quads `k .. MAX_QUADS - 1` with
the fan pattern and leaves every entry below `6 * k` and every entry from
`MAX_INDXS` on as it was. -/
theorem init_indxs_loop_spec (fuel : Nat) :
    ∀ (k : Nat) (a : Nat → Nat), k ≤ MAX_QUADS → MAX_QUADS - k ≤ fuel →
      (∀ q, k ≤ q → q < MAX_QUADS →
        init_indxs_loop fuel (4 * k) (6 * k) a (6 * q) = 4 * q ∧
        init_indxs_loop fuel (4 * k) (6 * k) a (6 * q + 1) = 4 * q + 1 ∧
        init_indxs_loop fuel (4 * k) (6 * k) a (6 * q + 2) = 4 * q + 2 ∧
        init_indxs_loop fuel (4 * k) (6 * k) a (6 * q + 3) = 4 * q ∧
        init_indxs_loop fuel (4 * k) (6 * k) a (6 * q + 4) = 4 * q + 2 ∧
        init_indxs_loop fuel (4 * k) (6 * k) a (6 * q + 5) = 4 * q + 3) ∧
      (∀ j, j < 6 * k ∨ MAX_INDXS ≤ j →
        init_indxs_loop fuel (4 * k) (6 * k) a j = a j) := by
  induction fuel with
  | zero =>
    intro k a hk hfuel
    have hk' : k = MAX_QUADS := by omega
    refine ⟨?_, ?_⟩
    · intro q hq1 hq2
      omega
    · intro j _
      rfl
  | succ fuel ih =>
    intro k a hk hfuel
    by_cases hlt : k < MAX_QUADS
    · have hk16 : k < 16384 := hlt
      have hcond : 6 * k < MAX_INDXS := by
        rw [MAX_INDXS_eq]
        omega
      have hv : (4 * k + 4) % 2 ^ 32 = 4 * (k + 1) := by
        rw [Nat.mod_eq_of_lt (by omega)]
        omega
      have hi : (6 * k + 6) % 2 ^ 32 = 6 * (k + 1) := by
        rw [Nat.mod_eq_of_lt (by omega)]
        omega
      have hunf : ∀ j, init_indxs_loop (fuel + 1) (4 * k) (6 * k) a j =
          init_indxs_loop fuel (4 * (k + 1)) (6 * (k + 1))
            (init_indxs_body (4 * k) (6 * k) a) j := by
        intro j
        rw [init_indxs_loop, if_pos hcond, hv, hi]
      obtain ⟨b0, b1, b2, b3, b4, b5, bo⟩ :=
        init_indxs_body_spec (4 * k) (6 * k) a (by omega) (by omega)
      obtain ⟨ihq, iho⟩ := ih (k + 1) (init_indxs_body (4 * k) (6 * k) a) (by omega) (by omega)
      refine ⟨?_, ?_⟩
      · intro q hq1 hq2
        by_cases hqk : q = k
        · subst hqk
          simp only [hunf]
          rw [iho _ (Or.inl (by omega)), iho _ (Or.inl (by omega)), iho _ (Or.inl (by omega)),
            iho _ (Or.inl (by omega)), iho _ (Or.inl (by omega)), iho _ (Or.inl (by omega))]
          exact ⟨b0, b1, b2, b3, b4, b5⟩
        · simp only [hunf]
          exact ihq q (by omega) hq2
      · intro j hj
        rw [hunf, iho j (by omega), bo j (by rw [MAX_INDXS_eq] at hj; omega)]
    · have hk' : k = MAX_QUADS := by omega
      have hcond : ¬ 6 * k < MAX_INDXS := by
        rw [MAX_INDXS_eq, hk', MAX_QUADS_eq]
        omega
      refine ⟨?_, ?_⟩
      · intro q hq1 hq2
        omega
      · intro j _
        rw [init_indxs_loop, if_neg hcond]


theorem index_uploads_append (a b : List GLCall) :
    index_uploads (a ++ b) = index_uploads a ++ index_uploads b := by
  induction a with
  | nil => rfl
  | cons c cs ih =>
    cases c with
    | glBufferData target size data usage =>
      cases target <;> cases data <;>
        simp only [List.cons_append, index_uploads, List.append_eq, ih]
    | _ => simp only [List.cons_append, index_uploads, List.append_eq, ih]

theorem index_uploads_flush (s : Renderer) :
    index_uploads (renderer_flush s).gl = index_uploads s.gl := by
  by_cases h : s.curr_quad = 0
  · rw [renderer_flush_of_empty s h]
  · rw [renderer_flush_of_nonempty s h]
    show index_uploads (s.gl ++ flush_calls s) = _
    rw [index_uploads_append]
    simp [flush_calls, index_uploads]

theorem index_uploads_set_image (s : Renderer) (i : Image) :
    index_uploads (renderer_set_image i s).gl = index_uploads s.gl := by
  by_cases h : i.id = s.hot_image.id
  · rw [renderer_set_image_of_eq s i h]
  · rw [renderer_set_image_of_ne s i h]
    exact index_uploads_flush s

/-- The one index array that `renderer_init` uploads is `init_indxs`, with
`MAX_INDXS * sizeof(uint32_t)` bytes. -/
theorem index_uploads_init (env : GLNames) (s t : Renderer)
    (h : renderer_init env s = some t) :
    index_uploads t.gl = index_uploads s.gl ++ [(MAX_INDXS * sizeof_uint32, init_indxs)] := by
  unfold renderer_init at h
  simp only at h
  split_ifs at h
  cases h
  simp only [index_uploads_append, index_uploads, index_uploads_set_image, renderer_mem_image,
    List.append_nil, List.nil_append]

/-- With fuel for at least `MAX_QUADS` passes the loop ends by its own test:
the array it leaves does not depend on the fuel. -/
theorem init_indxs_loop_fuel (fuel : Nat) (hfuel : MAX_QUADS ≤ fuel) (a : Nat → Nat) :
    init_indxs_loop fuel 0 0 a = init_indxs_loop MAX_QUADS 0 0 a := by
  obtain ⟨h1, h2⟩ := init_indxs_loop_spec fuel 0 a (Nat.zero_le _) (by omega)
  obtain ⟨g1, g2⟩ := init_indxs_loop_spec MAX_QUADS 0 a (Nat.zero_le _) (by omega)
  simp only [Nat.mul_zero] at h1 h2 g1 g2
  funext j
  by_cases hj : MAX_INDXS ≤ j
  · rw [h2 j (Or.inr hj), g2 j (Or.inr hj)]
  · have hq : j / 6 < MAX_QUADS := by
      rw [MAX_INDXS_eq] at hj
      rw [MAX_QUADS_eq]
      omega
    obtain ⟨a0, a1, a2, a3, a4, a5⟩ := h1 (j / 6) (Nat.zero_le _) hq
    obtain ⟨c0, c1, c2, c3, c4, c5⟩ := g1 (j / 6) (Nat.zero_le _) hq
    have hcases : j = 6 * (j / 6) ∨ j = 6 * (j / 6) + 1 ∨ j = 6 * (j / 6) + 2 ∨
        j = 6 * (j / 6) + 3 ∨ j = 6 * (j / 6) + 4 ∨ j = 6 * (j / 6) + 5 := by omega
    rcases hcases with e | e | e | e | e | e
    · rw [e, a0, c0]
    · rw [e, a1, c1]
    · rw [e, a2, c2]
    · rw [e, a3, c3]
    · rw [e, a4, c4]
    · rw [e, a5, c5]

/-- C11. The index array of `renderer_init` has `MAX_INDXS = 6 * MAX_QUADS`
entries, and for every quad number `i` below `MAX_QUADS` its entries
`6*i .. 6*i+5` are `4*i`, `4*i+1`, `4*i+2`, `4*i`, `4*i+2`, `4*i+3`: the two
triangles 0-1-2 and 0-2-3 of the vertices `4*i .. 4*i+3`.  The six positions
are inside the array and the four vertices are below `MAX_VERTS`.  The loop
writes nothing at or beyond position `MAX_INDXS`, whatever the array held
before, it ends by its own test within `MAX_QUADS` passes, and the array is
the one index upload of `renderer_init`. -/
theorem init_index_buffer_pattern (i : Nat) (hi : i < MAX_QUADS) :
    MAX_INDXS = 6 * MAX_QUADS ∧
    init_indxs (6 * i) = 4 * i + 0 ∧
    init_indxs (6 * i + 1) = 4 * i + 1 ∧
    init_indxs (6 * i + 2) = 4 * i + 2 ∧
    init_indxs (6 * i + 3) = 4 * i + 0 ∧
    init_indxs (6 * i + 4) = 4 * i + 2 ∧
    init_indxs (6 * i + 5) = 4 * i + 3 ∧
    6 * i + 6 ≤ MAX_INDXS ∧
    4 * i + 4 ≤ MAX_VERTS ∧
    (∀ (a : Nat → Nat) (j : Nat), MAX_INDXS ≤ j → init_indxs_loop MAX_INDXS 0 0 a j = a j) ∧
    (∀ fuel, MAX_QUADS ≤ fuel → init_indxs_loop fuel 0 0 (fun _ => 0) = init_indxs) ∧
    (∀ (env : GLNames) (s t : Renderer), renderer_init env s = some t →
      index_uploads t.gl = index_uploads s.gl ++ [(MAX_INDXS * sizeof_uint32, init_indxs)]) := by
  have hfuel : MAX_QUADS ≤ MAX_INDXS := by
    rw [MAX_QUADS_eq, MAX_INDXS_eq]
    omega
  have hspec : ∀ a : Nat → Nat, _ :=
    fun a => init_indxs_loop_spec MAX_INDXS 0 a (Nat.zero_le _) (by omega)
  obtain ⟨h1, _⟩ := hspec (fun _ => 0)
  obtain ⟨a0, a1, a2, a3, a4, a5⟩ := h1 i (Nat.zero_le _) hi
  have hi' : i < 16384 := hi
  refine ⟨rfl, a0, a1, a2, a3, a4, a5, ?_, ?_, ?_, ?_, index_uploads_init⟩
  · rw [MAX_INDXS_eq]
    omega
  · rw [MAX_VERTS_eq]
    omega
  · intro a j hj
    exact (hspec a).2 j (Or.inr hj)
  · intro fuel hf
    unfold init_indxs
    rw [init_indxs_loop_fuel fuel hf, init_indxs_loop_fuel MAX_INDXS hfuel]

/-- Witness of C11 at the last quad, `i = MAX_QUADS - 1 = 16383`. -/
theorem init_index_buffer_pattern_witness :
    16383 < MAX_QUADS ∧
    init_indxs (6 * 16383) = 4 * 16383 + 0 ∧
    init_indxs (6 * 16383 + 1) = 4 * 16383 + 1 ∧
    init_indxs (6 * 16383 + 2) = 4 * 16383 + 2 ∧
    init_indxs (6 * 16383 + 3) = 4 * 16383 + 0 ∧
    init_indxs (6 * 16383 + 4) = 4 * 16383 + 2 ∧
    init_indxs (6 * 16383 + 5) = 4 * 16383 + 3 ∧
    6 * 16383 + 6 ≤ MAX_INDXS ∧
    4 * 16383 + 4 ≤ MAX_VERTS :=
  have h := init_index_buffer_pattern 16383 (by decide)
  ⟨by decide, h.2.1, h.2.2.1, h.2.2.2.1, h.2.2.2.2.1, h.2.2.2.2.2.1, h.2.2.2.2.2.2.1,
    h.2.2.2.2.2.2.2.1, h.2.2.2.2.2.2.2.2.1⟩

/-- C12. Transposing twice gives the matrix back, on all sixteen entries; the
transpose has at row `i`, column `j` the entry of the matrix at row `j`,
column `i`. -/
theorem mat4_transpose_involution (M : mat4) :
    math_mat4_transpose (math_mat4_transpose M) = M ∧
    ∀ i j : Fin 4, (math_mat4_transpose M).entry i j = M.entry j i := by
  refine ⟨rfl, ?_⟩
  intro i j
  fin_cases i <;> fin_cases j <;> rfl

/-- The first quads of the index array, evaluated: `0 1 2 0 2 3`, then
`4 5 6 4 6 7`, when the loop is run for two passes only. -/
theorem init_indxs_first_entries :
    (List.range 12).map (init_indxs_loop 2 0 0 (fun _ => 0)) =
      [0, 1, 2, 0, 2, 3, 4, 5, 6, 4, 6, 7] := by
  decide

end Neko
